import Mathlib

/-
Verification of generate-GTFS-shapes, Step 1 (Step1_MakeShapesFC.py).

This file gives a shallow embedding of the shape-deduplication engine,
the routing partition and dispatch, and the output reconciliation of the
tool, and proves theorems about the embedded definitions.

Conventions of the embedding:
* sqlite tables are lists of row records, in table order;
* Python dictionaries are association lists; dictionaries that are built
  by repeated assignment are read with dictGet? (last write wins, as in
  Python), while sequence_shape_dict, which only ever inserts fresh keys,
  is read with lookupShape (first and only matching entry);
* Python exceptions are Except values; an Except.error escaping a phase
  models the exception propagating out of RunStep1 (which re-raises);
* latitude/longitude values are carried opaquely (the claims never
  compute with them), modeled as rationals;
* the external Route solver (arcpy.na.Solve) is a parameter: for each
  chunk it either raises (solveFailed, the except branch at line 729) or
  returns, per shape of the chunk, whether a route was produced; the
  shapes whose routes appear in the solved layer and the shapes named by
  a "No route for" warning partition the chunk, which the hasRoute
  predicate renders.
-/

abbrev TripId := String
abbrev StopId := String
abbrev RouteId := String

/-- Ordered stop-id tuple of a trip paired with its route id: the dedup key
(route_id, stop_sequence) built at line 330 of the source. -/
abbrev ShapeKey := RouteId × List StopId

/-- One row of the stop_times table (the three fields the engine reads). -/
structure StopTimeRow where
  trip_id : TripId
  stop_id : StopId
  stop_sequence : Int
deriving DecidableEq

/-- One row of the trips table (the fields the engine reads and writes). -/
structure TripRow where
  trip_id : TripId
  route_id : RouteId
  shape_id : Option String
deriving DecidableEq

/-- One row of the routes table, as fetched at lines 268-274. -/
structure RouteRow where
  route_id : RouteId
  agency_id : Option String
  route_short_name : Option String
  route_long_name : Option String
  route_desc : Option String
  route_type : Int
  route_url : Option String
  route_color : Option String
  route_text_color : Option String
deriving DecidableEq

/-- Value stored in RouteDict at lines 282-284: the route row fields plus
the human-readable route_type_text. -/
structure RouteInfo where
  agency_id : Option String
  route_short_name : Option String
  route_long_name : Option String
  route_desc : Option String
  route_type : Int
  route_url : Option String
  route_color : Option String
  route_text_color : Option String
  route_type_text : String
deriving DecidableEq

/-- Python runtime errors that the embedded fragments can raise. -/
inductive PyErr where
  | typeError
deriving DecidableEq

-- ----- Generic list helpers -----

/-- Append x to acc if it is not already present; folding addNew over a
list keeps the first occurrence of each element, in first-seen order. -/
def addNew {α : Type} [DecidableEq α] (acc : List α) (x : α) : List α :=
  if x ∈ acc then acc else acc ++ [x]

/-- Concatenation of the images of f, in order. -/
def concatMap {α β : Type} (f : α → List β) : List α → List β
  | [] => []
  | x :: xs => f x ++ concatMap f xs

/-- Python dict read for dictionaries built by repeated assignment:
the last write wins. -/
def dictGet? {α β : Type} [DecidableEq α] (l : List (α × β)) (k : α) : Option β :=
  l.foldl (fun acc p => if p.1 = k then some p.2 else acc) none

/-- Insert a (stop_id, stop_sequence) pair into a list sorted by
stop_sequence, after all pairs with a strictly smaller sequence value
and before pairs with an equal one.  Folding this insertion over the
list from the right keeps the original relative order of equal-sequence
pairs, so the sort below is stable, like Python list.sort. -/
def insertBySeq (p : StopId × Int) : List (StopId × Int) → List (StopId × Int)
  | [] => [p]
  | q :: qs => if q.2 < p.2 then q :: insertBySeq p qs else p :: q :: qs

/-- Stable sort by stop_sequence: selectedstops.sort(key=itemgetter(1)),
line 325 of the source. -/
def sortBySeq : List (StopId × Int) → List (StopId × Int)
  | [] => []
  | p :: ps => insertBySeq p (sortBySeq ps)

/-- Ascending insertion sort on Nat, modelling Python sorted(). -/
def insertNat (x : Nat) : List Nat → List Nat
  | [] => [x]
  | y :: ys => if y < x then y :: insertNat x ys else x :: y :: ys

/-- Python sorted() on a list of ints. -/
def sortNats : List Nat → List Nat
  | [] => []
  | x :: xs => insertNat x (sortNats xs)

/-- Code-point comparison of char lists: the order Python sorted() uses
on strings. -/
def charListLt : List Char → List Char → Bool
  | [], [] => false
  | [], _ :: _ => true
  | _ :: _, [] => false
  | a :: as, b :: bs =>
      if a.toNat < b.toNat then true
      else if b.toNat < a.toNat then false
      else charListLt as bs

/-- Lexicographic string comparison by code points. -/
def strLt (a b : String) : Bool := charListLt a.data b.data

/-- Ascending insertion sort on String, modelling Python sorted(). -/
def insertStr (x : String) : List String → List String
  | [] => [x]
  | y :: ys => if strLt y x then y :: insertStr x ys else x :: y :: ys

/-- Python sorted() on a list of strings. -/
def sortStrs : List String → List String
  | [] => []
  | x :: xs => insertStr x (sortStrs xs)

/-- Deterministic stand-in for Python list(set(l)): duplicates removed,
first occurrences kept. -/
def dedupKeepFirst {α : Type} [DecidableEq α] (l : List α) : List α :=
  l.foldl addNew []

/-- Chunking with fixed fuel; fuel at least the length of the list makes
the result the consecutive 100-element chunks of the list. -/
def chunkGo {α : Type} : Nat → List α → List (List α)
  | _, [] => []
  | 0, x :: xs => [x :: xs]
  | n + 1, x :: xs => ((x :: xs).take 100) :: chunkGo n ((x :: xs).drop 100)

/-- ChunkSize = 100 at line 654: sequences_Streets_chunked. -/
def chunkBy100 {α : Type} (l : List α) : List (List α) :=
  chunkGo l.length l

-- ----- Route info loading (lines 256-284) -----

/-- The route_type_dict of lines 256-263: label for each known GTFS code. -/
def route_type_text_of (n : Int) : Option String :=
  if n = 0 then some "Tram, Streetcar, Light rail"
  else if n = 1 then some "Subway, Metro"
  else if n = 2 then some "Rail"
  else if n = 3 then some "Bus"
  else if n = 4 then some "Ferry"
  else if n = 5 then some "Cable car"
  else if n = 6 then some "Gondola, Suspended cable car"
  else if n = 7 then some "Funicular"
  else none

/-- Body of the routes loop at lines 275-284.  For a known route_type the
row is stored together with its label.  For an unknown route_type the
except branch runs: it sets route_type_text and then executes
route[5] = '100'; but route is a tuple fetched from sqlite3 (no
row_factory is installed), and tuple item assignment raises TypeError,
which escapes the bare except handler it occurs inside of. -/
def processRouteRow (route : RouteRow) : Except PyErr RouteInfo :=
  match route_type_text_of route.route_type with
  | some txt =>
      Except.ok ⟨route.agency_id, route.route_short_name, route.route_long_name,
                 route.route_desc, route.route_type, route.route_url,
                 route.route_color, route.route_text_color, txt⟩
  | none => Except.error PyErr.typeError

/-- The routes loop at lines 275-284 building RouteDict; the first row
whose except branch runs aborts the loop with the escaping TypeError. -/
def loadRouteDict : List RouteRow → Except PyErr (List (RouteId × RouteInfo))
  | [] => Except.ok []
  | r :: rs =>
    match processRouteRow r with
    | Except.error e => Except.error e
    | Except.ok info =>
      match loadRouteDict rs with
      | Except.error e => Except.error e
      | Except.ok d => Except.ok ((r.route_id, info) :: d)

/-- Output reconciliation of route_desc (line 421 of the source):
row[5] = route_desc[0:250] if route_desc else route_desc.
Python strings are modeled as char lists so that lengths can be stated;
None is none, the empty string is some []. Both None and the empty
string are falsy and are passed through unchanged. -/
def outputRouteDesc (route_desc : Option (List Char)) : Option (List Char) :=
  match route_desc with
  | none => none
  | some s => if s.isEmpty then some s else some (s.take 250)

-- ----- Shape deduplication engine (lines 302-358) -----

/-- SELECT stop_id, stop_sequence FROM stop_times WHERE trip_id = t
(line 321), in table order. -/
def selectedStops (st : List StopTimeRow) (t : TripId) : List (StopId × Int) :=
  (st.filter (fun r => r.trip_id = t)).map (fun r => (r.stop_id, r.stop_sequence))

/-- The ordered stop-id tuple of a trip: selected stops, stably sorted by
stop_sequence, stop ids taken in order (lines 324-328). -/
def stopSequenceOfTrip (st : List StopTimeRow) (t : TripId) : List StopId :=
  (sortBySeq (selectedStops st t)).map Prod.fst

/-- trip_route_dict built at lines 291-300 from the trips table. -/
def trip_route_dict (trips : List TripRow) : List (TripId × RouteId) :=
  trips.map (fun r => (r.trip_id, r.route_id))

/-- SELECT DISTINCT trip_id FROM stop_times (lines 303-308), modeled as
first occurrences in table scan order. -/
def allTripsIn (st : List StopTimeRow) : List TripId :=
  (st.map (fun r => r.trip_id)).foldl addNew []

/-- The dedup key of a trip: (trip_route_dict[trip], stop sequence);
none when the trip id is missing from trip_route_dict, which in the
source raises an uncaught KeyError at line 329. -/
def keyOfTrip? (trip_route : List (TripId × RouteId)) (st : List StopTimeRow)
    (t : TripId) : Option ShapeKey :=
  (dictGet? trip_route t).map (fun r => (r, stopSequenceOfTrip st t))

/-- Read of sequence_shape_dict; its keys are unique by construction, so
the first matching entry is the only one. -/
def lookupShape (d : List (ShapeKey × Nat)) (k : ShapeKey) : Option Nat :=
  (d.find? (fun p => p.1 = k)).map Prod.snd

/-- shape_trip_dict.setdefault(sh, []).append(t) (lines 333 and 336). -/
def appendTripToShape : List (Nat × List TripId) → Nat → TripId → List (Nat × List TripId)
  | [], sh, t => [(sh, [t])]
  | e :: rest, sh, t =>
      if e.1 = sh then (e.1, e.2 ++ [t]) :: rest else e :: appendTripToShape rest sh t

/-- State of the dedup loop: sequence_shape_dict and shape_trip_dict in
insertion order, and the running shape_id counter (next id to assign). -/
structure DedupState where
  sequence_shape_dict : List (ShapeKey × Nat)
  shape_trip_dict : List (Nat × List TripId)
  next_shape_id : Nat
deriving DecidableEq

/-- One iteration of the loop at lines 320-337 for one trip id. -/
def dedupStep (trip_route : List (TripId × RouteId)) (st : List StopTimeRow)
    (s : DedupState) (t : TripId) : Except Unit DedupState :=
  match keyOfTrip? trip_route st t with
  | none => Except.error ()
  | some key =>
    match lookupShape s.sequence_shape_dict key with
    | some sh =>
        Except.ok { s with shape_trip_dict := appendTripToShape s.shape_trip_dict sh t }
    | none =>
        Except.ok ⟨s.sequence_shape_dict ++ [(key, s.next_shape_id)],
                   appendTripToShape s.shape_trip_dict s.next_shape_id t,
                   s.next_shape_id + 1⟩

/-- The loop at lines 320-337 over a list of trip ids. -/
def dedupLoop (trip_route : List (TripId × RouteId)) (st : List StopTimeRow) :
    List TripId → DedupState → Except Unit DedupState
  | [], s => Except.ok s
  | t :: ts, s =>
    match dedupStep trip_route st s t with
    | Except.error e => Except.error e
    | Except.ok s2 => dedupLoop trip_route st ts s2

/-- The whole dedup phase: loop over all distinct trips of stop_times
starting from empty dictionaries and shape_id = 1 (lines 316-337). -/
def deduplicate (trip_route : List (TripId × RouteId)) (st : List StopTimeRow) :
    Except Unit DedupState :=
  dedupLoop trip_route st (allTripsIn st) ⟨[], [], 1⟩

/-- Shape id assigned to a trip by a dedup state. -/
def shapeOfTrip (trip_route : List (TripId × RouteId)) (st : List StopTimeRow)
    (s : DedupState) (t : TripId) : Option Nat :=
  match keyOfTrip? trip_route st t with
  | none => none
  | some k => lookupShape s.sequence_shape_dict k

/-- The distinct dedup keys of the trips of stop_times, in first-seen
order. -/
def distinctShapeKeys (trip_route : List (TripId × RouteId)) (st : List StopTimeRow) :
    List ShapeKey :=
  ((allTripsIn st).filterMap (keyOfTrip? trip_route st)).foldl addNew []

/-- numshapes = shape_id - 1, line 339. -/
def numshapes (s : DedupState) : Nat := s.next_shape_id - 1

/-- Trip t is recorded under shape sh in shape_trip_dict. -/
def tripIn (d : List (Nat × List TripId)) (t : TripId) (sh : Nat) : Prop :=
  ∃ l, (sh, l) ∈ d ∧ t ∈ l

/-- Invariant of the dedup loop after processing the trip ids in done:
shape ids are 1..n in insertion order, the counter is n+1, the keys are
the distinct keys of done in first-seen order, every processed trip has
a key present in the dictionary, and shape_trip_dict records exactly the
processed trips under their assigned shapes. -/
structure DedupInv (trip_route : List (TripId × RouteId)) (st : List StopTimeRow)
    (done : List TripId) (s : DedupState) : Prop where
  ids : s.sequence_shape_dict.map Prod.snd = List.range' 1 s.sequence_shape_dict.length
  next : s.next_shape_id = s.sequence_shape_dict.length + 1
  keys : s.sequence_shape_dict.map Prod.fst
           = (done.filterMap (keyOfTrip? trip_route st)).foldl addNew []
  located : ∀ t ∈ done, ∃ k, keyOfTrip? trip_route st t = some k ∧
              (lookupShape s.sequence_shape_dict k).isSome
  trips_iff : ∀ t sh, tripIn s.shape_trip_dict t sh ↔
                (t ∈ done ∧ shapeOfTrip trip_route st s t = some sh)

/-- UPDATE trips SET shape_id = sh WHERE trip_id = t (line 352), applied
to one row. -/
def applyShapeWrite (row : TripRow) (p : TripId × Nat) : TripRow :=
  if row.trip_id = p.1 then { row with shape_id := some (toString p.2) } else row

/-- UPDATE trips SET shape_id = sh WHERE trip_id = t over the table. -/
def updateTripShapeField (trips : List TripRow) (t : TripId) (sh : Nat) : List TripRow :=
  trips.map (fun row => applyShapeWrite row (t, sh))

/-- The nested loops at lines 347-354: for each shape, for each of its
trips, update the trips table (all committed before conn.close() at
line 358, which precedes the routing stage). -/
def updateTripsTable (trips : List TripRow) (s : DedupState) : List TripRow :=
  s.shape_trip_dict.foldl
    (fun acc e => e.2.foldl (fun acc2 t => updateTripShapeField acc2 t e.1) acc) trips

/-- All (trip, shape) writes performed by updateTripsTable, in order. -/
def writePairs (s : DedupState) : List (TripId × Nat) :=
  concatMap (fun e => e.2.map (fun t => (t, e.1))) s.shape_trip_dict

-- ----- Routing partition and dispatch (lines 361-387, 630-863) -----

/-- Network location fields of a stop (lines 235-238). -/
structure LocFields where
  sourceID : Int
  sourceOID : Int
  posAlong : Rat
  sideOfEdge : Int
deriving DecidableEq

/-- One row of the Stops_wShapeIDs output (the fields common to both
passes; the street pass additionally stores the location fields, which
no claim mentions). -/
structure SeqPoint where
  x : Rat
  y : Rat
  stop_id : StopId
  shape_id : Nat
  sequence : Nat
  curb : Nat
deriving DecidableEq

/-- A geometry in the Shapes output: either a polyline produced by the
Route solver (content external, carried opaquely) or the straight-line
polyline through the located stops. -/
inductive Geom where
  | streetPath
  | straightLine (vertices : List (Rat × Rat))
deriving DecidableEq

/-- One feature of the Shapes output feature class. -/
structure GeomEntry where
  shape_id : Nat
  geom : Geom
deriving DecidableEq

/-- Result of one whole-batch Solve call: either the invocation raises
(the except branch at lines 729-736), or it returns with, per shape of
the chunk, whether a route was produced (shapes without a route are the
ones named by "No route for" warnings, lines 741-746), plus the stop ids
named by "is unlocated" warnings (lines 747-749). -/
inductive SolveOutcome where
  | solveFailed
  | solved (hasRoute : Nat → Bool) (unlocatedStops : List StopId)

/-- The external Route solver, one invocation per chunk. -/
abbrev Solver := List (ShapeKey × Nat) → SolveOutcome

/-- Run-state the dispatch phase reads (globals of the source). -/
structure DispatchIn where
  sequence_shape_dict : List (ShapeKey × Nat)
  rtOf : RouteId → Int
  stoplatlon_dict : List (StopId × (Rat × Rat))
  stoplocfield_dict : List (StopId × LocFields)
  driveSide : String

/-- Lines 117-123: the source overwrites the drive-side input with
"Right" before testing it, so CurbApproach is always 1. -/
def computeCurbApproach (driveSideInput : String) : Nat :=
  let driveSide := "Right"
  if driveSide = "Right" then 1 else 2

/-- sequences_Streets (lines 645-651): the dedup entries whose route
type is one of the configured street types. -/
def sequencesStreets (inp : DispatchIn) (streetTypes : List Int) :
    List (ShapeKey × Nat) :=
  inp.sequence_shape_dict.filter (fun kv => decide (inp.rtOf kv.1.1 ∈ streetTypes))

/-- Rows inserted into the temporary input points for one sequence in the
street pass (lines 674-692): stops missing from stoplatlon_dict or from
stoplocfielddict are skipped; sequence numbers count every stop,
skipped or not, starting at 1. -/
def streetPointsForKey (inp : DispatchIn) (kv : ShapeKey × Nat) : List SeqPoint :=
  (kv.1.2.enum).filterMap (fun pr =>
    match dictGet? inp.stoplatlon_dict pr.2, dictGet? inp.stoplocfield_dict pr.2 with
    | some ll, some _ =>
        some ⟨ll.2, ll.1, pr.2, kv.2, pr.1 + 1, computeCurbApproach inp.driveSide⟩
    | _, _ => none)

/-- Stops appended to badStops for one sequence in the street pass. -/
def streetBadStopsForKey (inp : DispatchIn) (kv : ShapeKey × Nat) : List StopId :=
  kv.1.2.filter (fun stp =>
    decide (¬ ((dictGet? inp.stoplatlon_dict stp).isSome ∧
               (dictGet? inp.stoplocfield_dict stp).isSome)))

/-- shapes_in_chunk, line 673-677. -/
def chunkShapeIds (chunk : List (ShapeKey × Nat)) : List Nat :=
  chunk.map Prod.snd

/-- Street geometries contributed by one chunk: none when the Solve call
raised (the continue at line 736 skips the CopyFeatures/Append); else
one streetPath per shape the solver routed. -/
def chunkStreetGeoms (solver : Solver) (chunk : List (ShapeKey × Nat)) : List GeomEntry :=
  match solver chunk with
  | SolveOutcome.solveFailed => []
  | SolveOutcome.solved has _ =>
      (chunk.filter (fun kv => has kv.2)).map (fun kv => ⟨kv.2, Geom.streetPath⟩)

/-- Shape ids added to NoRouteGenerated by one chunk: the whole chunk on
Solve failure (line 735), else the shapes named by "No route for"
warnings. -/
def chunkNoRoute (solver : Solver) (chunk : List (ShapeKey × Nat)) : List Nat :=
  match solver chunk with
  | SolveOutcome.solveFailed => chunkShapeIds chunk
  | SolveOutcome.solved has _ =>
      (chunk.filter (fun kv => ¬ has kv.2)).map Prod.snd

/-- Stops_wShapeIDs rows contributed by one chunk: none on Solve failure
(the continue at line 736 skips the Append at line 770). -/
def chunkPoints (inp : DispatchIn) (solver : Solver)
    (chunk : List (ShapeKey × Nat)) : List SeqPoint :=
  match solver chunk with
  | SolveOutcome.solveFailed => []
  | SolveOutcome.solved _ _ => concatMap (streetPointsForKey inp) chunk

/-- Unlocated stop ids contributed by one chunk (none on Solve failure:
the continue skips the warning parsing). -/
def chunkUnlocated (solver : Solver) (chunk : List (ShapeKey × Nat)) : List StopId :=
  match solver chunk with
  | SolveOutcome.solveFailed => []
  | SolveOutcome.solved _ u => u

/-- The chunked street sequences (lines 653-657). -/
def streetChunks (inp : DispatchIn) (streetTypes : List Int) :
    List (List (ShapeKey × Nat)) :=
  chunkBy100 (sequencesStreets inp streetTypes)

/-- All street geometries, accumulated chunk by chunk. -/
def streetGeomsL (inp : DispatchIn) (streetTypes : List Int) (solver : Solver) :
    List GeomEntry :=
  concatMap (chunkStreetGeoms solver) (streetChunks inp streetTypes)

/-- NoRouteGenerated after the street pass. -/
def noRouteGeneratedL (inp : DispatchIn) (streetTypes : List Int) (solver : Solver) :
    List Nat :=
  concatMap (chunkNoRoute solver) (streetChunks inp streetTypes)

/-- Stops_wShapeIDs rows written by the street pass. -/
def streetPointsL (inp : DispatchIn) (streetTypes : List Int) (solver : Solver) :
    List SeqPoint :=
  concatMap (chunkPoints inp solver) (streetChunks inp streetTypes)

/-- badStops accumulated by the street pass (appended whether or not the
Solve call later fails). -/
def streetBadStopsL (inp : DispatchIn) (streetTypes : List Int) : List StopId :=
  concatMap (fun chunk => concatMap (streetBadStopsForKey inp) chunk)
    (streetChunks inp streetTypes)

/-- unlocated_stops accumulated by the street pass. -/
def unlocatedStopsL (inp : DispatchIn) (streetTypes : List Int) (solver : Solver) :
    List StopId :=
  concatMap (chunkUnlocated solver) (streetChunks inp streetTypes)

/-- Condition of line 828: the straight pass handles a sequence when its
route type is a configured straight type or its shape failed street
routing. -/
def straightCond (inp : DispatchIn) (straightTypes : List Int) (noRoute : List Nat)
    (kv : ShapeKey × Nat) : Bool :=
  decide (inp.rtOf kv.1.1 ∈ straightTypes) || decide (kv.2 ∈ noRoute)

/-- The sequences handled by the straight pass, in dictionary order. -/
def straightSeqs (inp : DispatchIn) (straightTypes : List Int) (noRoute : List Nat) :
    List (ShapeKey × Nat) :=
  inp.sequence_shape_dict.filter (straightCond inp straightTypes noRoute)

/-- Vertices of the straight polyline of one sequence (lines 830-848):
the (lon, lat) of every stop present in stoplatlon_dict, in order;
missing stops are skipped without breaking the line. -/
def straightVerticesForKey (inp : DispatchIn) (kv : ShapeKey × Nat) :
    List (Rat × Rat) :=
  kv.1.2.filterMap (fun stp =>
    (dictGet? inp.stoplatlon_dict stp).map (fun ll => (ll.2, ll.1)))

/-- Stops_wShapeIDs rows written by the straight pass for one sequence
(line 846); sequence numbers count every stop, skipped or not. -/
def straightPointsForKey (inp : DispatchIn) (kv : ShapeKey × Nat) : List SeqPoint :=
  (kv.1.2.enum).filterMap (fun pr =>
    (dictGet? inp.stoplatlon_dict pr.2).map (fun ll =>
      ⟨ll.2, ll.1, pr.2, kv.2, pr.1 + 1, computeCurbApproach inp.driveSide⟩))

/-- badStops of the straight pass for one sequence: missing stops are
recorded only when the shape did not already fail street routing
(lines 837-840). -/
def straightBadForKey (inp : DispatchIn) (noRoute : List Nat)
    (kv : ShapeKey × Nat) : List StopId :=
  if kv.2 ∈ noRoute then []
  else kv.1.2.filter (fun stp => (dictGet? inp.stoplatlon_dict stp).isNone)

/-- Geometries written by the straight pass: one polyline per handled
sequence, inserted unconditionally at line 855. -/
def straightGeomsL (inp : DispatchIn) (straightTypes : List Int) (noRoute : List Nat) :
    List GeomEntry :=
  (straightSeqs inp straightTypes noRoute).map
    (fun kv => ⟨kv.2, Geom.straightLine (straightVerticesForKey inp kv)⟩)

/-- Stops_wShapeIDs rows written by the straight pass. -/
def straightPointsL (inp : DispatchIn) (straightTypes : List Int) (noRoute : List Nat) :
    List SeqPoint :=
  concatMap (straightPointsForKey inp) (straightSeqs inp straightTypes noRoute)

/-- badStops accumulated by the straight pass. -/
def straightBadL (inp : DispatchIn) (straightTypes : List Int) (noRoute : List Nat) :
    List StopId :=
  concatMap (straightBadForKey inp noRoute) (straightSeqs inp straightTypes noRoute)

/-- The final outputs of the dispatch phase. -/
structure DispatchOut where
  geoms : List GeomEntry
  points : List SeqPoint
  noRoute : List Nat
  streetBad : List StopId
  unlocated : List StopId
  straightBad : List StopId
deriving DecidableEq

/-- Lines 378-387: the street pass runs iff route_types_Street is
nonempty; the straight pass runs iff route_types_Straight is nonempty or
NoRouteGenerated is nonempty after the street pass. -/
def generateShapes (inp : DispatchIn) (streetTypes straightTypes : List Int)
    (solver : Solver) : DispatchOut :=
  let nr := if streetTypes = [] then [] else noRouteGeneratedL inp streetTypes solver
  let sg := if streetTypes = [] then [] else streetGeomsL inp streetTypes solver
  let sp := if streetTypes = [] then [] else streetPointsL inp streetTypes solver
  let sb := if streetTypes = [] then [] else streetBadStopsL inp streetTypes
  let su := if streetTypes = [] then [] else unlocatedStopsL inp streetTypes solver
  if straightTypes = [] ∧ nr = [] then
    ⟨sg, sp, nr, sb, su, []⟩
  else
    ⟨sg ++ straightGeomsL inp straightTypes nr,
     sp ++ straightPointsL inp straightTypes nr,
     nr, sb, su, straightBadL inp straightTypes nr⟩

-- ----- End-of-run warnings (lines 773-790 and 861-863) -----

/-- The three AddWarning calls at lines 773-780: the sorted shape-id list
is the whole of the second message. -/
def streetNoRouteWarnings (noRoute : List Nat) : List String :=
  if noRoute = [] then []
  else
    ["On-street route shapes for the following shape_ids could not be generated.  Straight-line route shapes will be generated for these shape_ids instead:",
     toString (sortNats noRoute),
     "If you are unhappy with this result, try re-running your analysis with a different u-turn policy and/or network restrictions, and check your network dataset for connectivity problems."]

/-- The AddWarning call at lines 782-784: deduplicated, sorted, and the
list is concatenated into the message. -/
def streetBadStopsWarning (badStops : List StopId) : List String :=
  if badStops = [] then []
  else
    ["Your stop_times.txt lists times for the following stops which are not included in your stops.txt file. These stops will be ignored. "
      ++ toString (sortStrs (dedupKeepFirst badStops))]

/-- The AddWarning call at lines 786-790: the source computes
sorted(list(set(unlocated_stops))) at line 787 but the emitted message
is the fixed text only; the computed list is never concatenated in. -/
def unlocatedStopsWarning (unlocated : List StopId) : List String :=
  if unlocated = [] then []
  else
    ["The following stop_ids could not be located on your network dataset and were skipped when route shapes were generated.  If you are unhappy with this result, please double-check your stop_lat and stop_lon values in stops.txt and your network dataset geometry to make sure everything is correct."]

/-- The AddWarning call at lines 861-863: deduplicated (list(set(...)),
its order modeled deterministically) but not sorted, list concatenated
into the message. -/
def straightBadStopsWarning (badStops : List StopId) : List String :=
  if badStops = [] then []
  else
    ["Your stop_times.txt lists times for the following stops which are not included in your stops.txt file. These stops will be ignored. "
      ++ toString (dedupKeepFirst badStops)]

-- ----- Whole-run composition -----

/-- Result of one run of Step 1 on loaded tables: the trips table after
the dedup-phase writes, and the dispatch outputs. -/
structure Step1Out where
  trips_table : List TripRow
  dispatch : DispatchOut

/-- RunStep1 from the dedup phase on: deduplicate, write the shape ids
back to the trips table (committed, connection closed, line 358), then
run the routing dispatch.  A dedup KeyError aborts the run. -/
def runStep1 (trips : List TripRow) (st : List StopTimeRow) (rtOf : RouteId → Int)
    (latlon : List (StopId × (Rat × Rat))) (locf : List (StopId × LocFields))
    (ds : String) (streetTypes straightTypes : List Int) (solver : Solver) :
    Except Unit Step1Out :=
  match deduplicate (trip_route_dict trips) st with
  | Except.error e => Except.error e
  | Except.ok s =>
      Except.ok ⟨updateTripsTable trips s,
        generateShapes ⟨s.sequence_shape_dict, rtOf, latlon, locf, ds⟩
          streetTypes straightTypes solver⟩

-- ----- Generic list lemmas -----

theorem mem_concatMap {α β : Type} (f : α → List β) (l : List α) (b : β) :
    b ∈ concatMap f l ↔ ∃ a ∈ l, b ∈ f a := by
  induction l with
  | nil => simp [concatMap]
  | cons x xs ih => simp [concatMap, ih, List.mem_append, or_and_right, exists_or]

theorem filter_concatMap {α β : Type} (p : β → Bool) (f : α → List β) (l : List α) :
    (concatMap f l).filter p = concatMap (fun a => (f a).filter p) l := by
  induction l with
  | nil => simp [concatMap]
  | cons x xs ih => simp [concatMap, List.filter_append, ih]

theorem mem_addNew {α : Type} [DecidableEq α] (acc : List α) (x y : α) :
    y ∈ addNew acc x ↔ y ∈ acc ∨ y = x := by
  unfold addNew
  by_cases h : x ∈ acc
  · simp only [if_pos h]
    constructor
    · exact fun hy => Or.inl hy
    · rintro (hy | rfl) <;> [exact hy; exact h]
  · simp [if_neg h, List.mem_append]

theorem mem_foldl_addNew {α : Type} [DecidableEq α] (l : List α) :
    ∀ (acc : List α) (x : α), x ∈ l.foldl addNew acc ↔ x ∈ acc ∨ x ∈ l := by
  induction l with
  | nil => simp
  | cons a as ih =>
    intro acc x
    simp only [List.foldl_cons, ih, mem_addNew, List.mem_cons]
    tauto

theorem mem_allTripsIn (st : List StopTimeRow) (t : TripId) :
    t ∈ allTripsIn st ↔ t ∈ st.map (fun r => r.trip_id) := by
  unfold allTripsIn
  rw [mem_foldl_addNew]
  simp

theorem range'_snoc (n s : Nat) : List.range' s (n + 1) = List.range' s n ++ [s + n] := by
  induction n generalizing s with
  | zero => simp [List.range']
  | succ m ih =>
    have h1 : List.range' s (m + 2) = s :: List.range' (s + 1) (m + 1) := rfl
    have h2 : List.range' s (m + 1) = s :: List.range' (s + 1) m := rfl
    rw [h1, ih (s + 1), h2]
    simp [List.cons_append]
    omega

theorem mem_range'_bounds (n : Nat) : ∀ (s m : Nat), m ∈ List.range' s n → s ≤ m ∧ m < s + n := by
  induction n with
  | zero => intro s m h; simp [List.range'] at h
  | succ k ih =>
    intro s m h
    have hh : m ∈ s :: List.range' (s + 1) k := h
    rcases List.mem_cons.mp hh with rfl | htl
    · omega
    · have := ih (s + 1) m htl
      omega

theorem range'_nodup (n : Nat) : ∀ (s : Nat), (List.range' s n).Nodup := by
  induction n with
  | zero => intro s; simp [List.range']
  | succ k ih =>
    intro s
    have hh : List.range' s (k + 1) = s :: List.range' (s + 1) k := rfl
    rw [hh, List.nodup_cons]
    refine ⟨fun hmem => ?_, ih (s + 1)⟩
    have := mem_range'_bounds k (s + 1) s hmem
    omega

theorem take_all_of_le {α : Type} (l : List α) :
    ∀ (n : Nat), l.length ≤ n → l.take n = l := by
  induction l with
  | nil => intro n _; simp
  | cons x xs ih =>
    intro n hn
    cases n with
    | zero => simp at hn
    | succ m =>
      simp only [List.take_succ_cons]
      rw [ih m (by simpa using hn)]

-- ----- lookupShape lemmas -----

theorem lookupShape_cons (e : ShapeKey × Nat) (rest : List (ShapeKey × Nat)) (k : ShapeKey) :
    lookupShape (e :: rest) k = if e.1 = k then some e.2 else lookupShape rest k := by
  unfold lookupShape
  rw [List.find?_cons]
  by_cases he : e.1 = k
  · simp [he]
  · simp [he]

theorem lookupShape_mem (d : List (ShapeKey × Nat)) (k : ShapeKey) (v : Nat)
    (h : lookupShape d k = some v) : (k, v) ∈ d := by
  induction d with
  | nil => simp [lookupShape] at h
  | cons e rest ih =>
    rw [lookupShape_cons] at h
    by_cases he : e.1 = k
    · rw [if_pos he] at h
      have hv : e.2 = v := by simpa using h
      cases e with
      | mk a b =>
        simp only at he hv
        subst he
        subst hv
        exact List.mem_cons_self _ _
    · rw [if_neg he] at h
      exact List.mem_cons_of_mem _ (ih h)

theorem lookupShape_isSome_iff (d : List (ShapeKey × Nat)) (k : ShapeKey) :
    (lookupShape d k).isSome ↔ k ∈ d.map Prod.fst := by
  induction d with
  | nil => simp [lookupShape]
  | cons e rest ih =>
    rw [lookupShape_cons]
    by_cases he : e.1 = k
    · simp [he]
    · rw [if_neg he, ih]
      simp only [List.map_cons, List.mem_cons]
      constructor
      · exact fun h => Or.inr h
      · rintro (h | h)
        · exact absurd h.symm he
        · exact h

theorem lookupShape_append_of_some (d : List (ShapeKey × Nat)) (e : ShapeKey × Nat)
    (k : ShapeKey) (v : Nat) (h : lookupShape d k = some v) :
    lookupShape (d ++ [e]) k = some v := by
  induction d with
  | nil => simp [lookupShape] at h
  | cons f rest ih =>
    rw [List.cons_append, lookupShape_cons]
    rw [lookupShape_cons] at h
    by_cases hf : f.1 = k
    · rwa [if_pos hf] at h ⊢
    · rw [if_neg hf] at h ⊢
      exact ih h

theorem lookupShape_append_of_none (d : List (ShapeKey × Nat)) (k k2 : ShapeKey) (v : Nat)
    (h : lookupShape d k2 = none) :
    lookupShape (d ++ [(k, v)]) k2 = if k2 = k then some v else none := by
  induction d with
  | nil =>
    rw [List.nil_append, lookupShape_cons]
    by_cases hk : k = k2
    · simp [hk]
    · have h2 : ¬ (k2 = k) := fun hc => hk hc.symm
      simp [hk, h2, lookupShape]
  | cons f rest ih =>
    rw [lookupShape_cons] at h
    rw [List.cons_append, lookupShape_cons]
    by_cases hf : f.1 = k2
    · rw [if_pos hf] at h
      simp at h
    · rw [if_neg hf] at h ⊢
      exact ih h

theorem snd_nodup_inj {α β : Type} (d : List (α × β)) (hnd : (d.map Prod.snd).Nodup)
    (p q : α × β) (hp : p ∈ d) (hq : q ∈ d) (heq : p.2 = q.2) : p = q :=
  List.inj_on_of_nodup_map hnd hp hq heq

theorem filter_snd_eq_single {α : Type} [DecidableEq α] (d : List (α × Nat))
    (hnd : (d.map Prod.snd).Nodup) (kv : α × Nat) (hkv : kv ∈ d) :
    d.filter (fun x => x.2 = kv.2) = [kv] := by
  induction d with
  | nil => simp at hkv
  | cons e rest ih =>
    simp only [List.map_cons, List.nodup_cons] at hnd
    rcases List.mem_cons.mp hkv with rfl | hmem
    · rw [List.filter_cons]
      have hrest : rest.filter (fun x => decide (x.2 = kv.2)) = [] := by
        apply List.filter_eq_nil_iff.mpr
        intro a ha
        simp only [decide_eq_true_eq]
        intro hc
        exact hnd.1 (hc ▸ List.mem_map_of_mem Prod.snd ha)
      simp [hrest]
    · rw [List.filter_cons]
      have hne : ¬ (e.2 = kv.2) := by
        intro hc
        exact hnd.1 (hc ▸ List.mem_map_of_mem Prod.snd hmem)
      simp only [hne, decide_False, if_neg Bool.false_ne_true]
      exact ih hnd.2 hmem

-- ----- Dedup invariant machinery -----

theorem shapeOfTrip_eq_bind (trip_route : List (TripId × RouteId)) (st : List StopTimeRow)
    (s : DedupState) (t : TripId) :
    shapeOfTrip trip_route st s t
      = Option.bind (keyOfTrip? trip_route st t) (lookupShape s.sequence_shape_dict) := by
  unfold shapeOfTrip
  cases keyOfTrip? trip_route st t <;> simp

theorem tripIn_nil (t : TripId) (sh : Nat) : ¬ tripIn [] t sh := by
  rintro ⟨l, hl, _⟩
  simp at hl

theorem tripIn_cons (e : Nat × List TripId) (d : List (Nat × List TripId))
    (t : TripId) (sh : Nat) :
    tripIn (e :: d) t sh ↔ (sh = e.1 ∧ t ∈ e.2) ∨ tripIn d t sh := by
  unfold tripIn
  constructor
  · rintro ⟨l, hmem, ht⟩
    rcases List.mem_cons.mp hmem with heq | hmem2
    · left
      cases e with
      | mk a b =>
        have h1 : sh = a ∧ l = b := by
          constructor <;> [exact congrArg Prod.fst heq; exact congrArg Prod.snd heq]
        exact ⟨h1.1, h1.2 ▸ ht⟩
    · exact Or.inr ⟨l, hmem2, ht⟩
  · rintro (⟨hsh, ht⟩ | ⟨l, hmem, ht⟩)
    · refine ⟨e.2, ?_, ht⟩
      rw [hsh]
      exact List.mem_cons_self _ _
    · exact ⟨l, List.mem_cons_of_mem _ hmem, ht⟩

theorem tripIn_appendTripToShape (d : List (Nat × List TripId)) (sh0 : Nat) (t0 : TripId)
    (t : TripId) (sh : Nat) :
    tripIn (appendTripToShape d sh0 t0) t sh ↔ tripIn d t sh ∨ (t = t0 ∧ sh = sh0) := by
  induction d with
  | nil =>
    unfold appendTripToShape
    rw [tripIn_cons]
    simp only [List.mem_singleton]
    constructor
    · rintro (⟨rfl, rfl⟩ | h)
      · exact Or.inr ⟨rfl, rfl⟩
      · exact absurd h (tripIn_nil _ _)
    · rintro (h | ⟨rfl, rfl⟩)
      · exact absurd h (tripIn_nil _ _)
      · exact Or.inl ⟨rfl, rfl⟩
  | cons e rest ih =>
    unfold appendTripToShape
    by_cases he : e.1 = sh0
    · rw [if_pos he]
      rw [tripIn_cons, tripIn_cons]
      simp only [List.mem_append, List.mem_singleton]
      subst he
      constructor
      · rintro (⟨rfl, ht | rfl⟩ | h)
        · exact Or.inl (Or.inl ⟨rfl, ht⟩)
        · exact Or.inr ⟨rfl, rfl⟩
        · exact Or.inl (Or.inr h)
      · rintro ((⟨rfl, ht⟩ | h) | ⟨rfl, rfl⟩)
        · exact Or.inl ⟨rfl, Or.inl ht⟩
        · exact Or.inr h
        · exact Or.inl ⟨rfl, Or.inr rfl⟩
    · rw [if_neg he]
      rw [tripIn_cons, tripIn_cons, ih]
      tauto

theorem shapeOfTrip_append_state (trip_route : List (TripId × RouteId))
    (st : List StopTimeRow) (s : DedupState) (k : ShapeKey) (nid : Nat)
    (d2 : List (Nat × List TripId)) (n2 : Nat) (t2 : TripId)
    (hl : lookupShape s.sequence_shape_dict k = none) :
    shapeOfTrip trip_route st ⟨s.sequence_shape_dict ++ [(k, nid)], d2, n2⟩ t2
      = if keyOfTrip? trip_route st t2 = some k then some nid
        else shapeOfTrip trip_route st s t2 := by
  rw [shapeOfTrip_eq_bind, shapeOfTrip_eq_bind]
  cases hk2 : keyOfTrip? trip_route st t2 with
  | none =>
    dsimp only [Option.bind]
    rw [if_neg (by simp)]
  | some k2 =>
    dsimp only [Option.bind]
    by_cases hkk : k2 = k
    · subst hkk
      rw [if_pos rfl]
      rw [lookupShape_append_of_none _ _ _ _ hl]
      simp
    · rw [if_neg (by simpa using hkk)]
      cases hl2 : lookupShape s.sequence_shape_dict k2 with
      | some v2 => exact lookupShape_append_of_some _ _ _ _ hl2
      | none =>
        rw [lookupShape_append_of_none _ _ _ _ hl2, if_neg hkk]

theorem dedupStep_inv (trip_route : List (TripId × RouteId)) (st : List StopTimeRow)
    (done : List TripId) (s s2 : DedupState) (t : TripId)
    (hinv : DedupInv trip_route st done s)
    (hstep : dedupStep trip_route st s t = Except.ok s2) :
    DedupInv trip_route st (done ++ [t]) s2 := by
  unfold dedupStep at hstep
  cases hk : keyOfTrip? trip_route st t with
  | none => rw [hk] at hstep; simp at hstep
  | some k =>
    rw [hk] at hstep
    dsimp only at hstep
    have hkeysfm : (done ++ [t]).filterMap (keyOfTrip? trip_route st)
        = done.filterMap (keyOfTrip? trip_route st) ++ [k] := by
      rw [List.filterMap_append]
      simp [hk]
    cases hl : lookupShape s.sequence_shape_dict k with
    | some sh0 =>
      rw [hl] at hstep
      dsimp only at hstep
      have hs2 : ({ s with shape_trip_dict := appendTripToShape s.shape_trip_dict sh0 t }
          : DedupState) = s2 := Except.ok.inj hstep
      subst hs2
      have hkeymem : k ∈ s.sequence_shape_dict.map Prod.fst :=
        (lookupShape_isSome_iff _ _).mp (by simp [hl])
      refine ⟨hinv.ids, hinv.next, ?_, ?_, ?_⟩
      · rw [hkeysfm, List.foldl_append, ← hinv.keys]
        simp only [List.foldl_cons, List.foldl_nil]
        unfold addNew
        rw [if_pos hkeymem]
      · intro t2 ht2
        rcases List.mem_append.mp ht2 with h2 | h2
        · exact hinv.located t2 h2
        · have : t2 = t := by simpa using h2
          subst this
          exact ⟨k, hk, by simp [hl]⟩
      · intro t2 sh
        rw [tripIn_appendTripToShape, hinv.trips_iff t2 sh]
        have hsho : shapeOfTrip trip_route st
            { s with shape_trip_dict := appendTripToShape s.shape_trip_dict sh0 t } t2
            = shapeOfTrip trip_route st s t2 := by
          rw [shapeOfTrip_eq_bind, shapeOfTrip_eq_bind]
        rw [hsho]
        have hshot : shapeOfTrip trip_route st s t = some sh0 := by
          rw [shapeOfTrip_eq_bind, hk]
          simpa using hl
        constructor
        · rintro (⟨hd, hsh⟩ | ⟨rfl, rfl⟩)
          · exact ⟨List.mem_append_left _ hd, hsh⟩
          · exact ⟨List.mem_append_right _ (by simp), hshot⟩
        · rintro ⟨hd, hsh⟩
          rcases List.mem_append.mp hd with h2 | h2
          · exact Or.inl ⟨h2, hsh⟩
          · have : t2 = t := by simpa using h2
            subst this
            right
            refine ⟨rfl, ?_⟩
            rw [hshot] at hsh
            exact (Option.some.inj hsh).symm
    | none =>
      rw [hl] at hstep
      dsimp only at hstep
      have hs2 : (⟨s.sequence_shape_dict ++ [(k, s.next_shape_id)],
          appendTripToShape s.shape_trip_dict s.next_shape_id t, s.next_shape_id + 1⟩
          : DedupState) = s2 := Except.ok.inj hstep
      subst hs2
      have hknot : k ∉ s.sequence_shape_dict.map Prod.fst := by
        intro hc
        have := (lookupShape_isSome_iff s.sequence_shape_dict k).mpr hc
        rw [hl] at this
        simp at this
      refine ⟨?_, ?_, ?_, ?_, ?_⟩
      · simp only [List.map_append, List.map_cons, List.map_nil, List.length_append,
          List.length_cons, List.length_nil]
        rw [hinv.ids, hinv.next]
        have := range'_snoc s.sequence_shape_dict.length 1
        rw [this]
        have : 1 + s.sequence_shape_dict.length = s.sequence_shape_dict.length + 1 := by omega
        rw [this]
      · simp only [List.length_append, List.length_cons, List.length_nil]
        rw [hinv.next]
      · rw [hkeysfm, List.foldl_append, ← hinv.keys]
        simp only [List.foldl_cons, List.foldl_nil]
        unfold addNew
        rw [if_neg hknot]
        simp
      · intro t2 ht2
        rcases List.mem_append.mp ht2 with h2 | h2
        · obtain ⟨k2, hk2, hsome2⟩ := hinv.located t2 h2
          obtain ⟨v2, hv2⟩ := Option.isSome_iff_exists.mp hsome2
          exact ⟨k2, hk2, by
            simp only
            rw [lookupShape_append_of_some _ _ _ _ hv2]
            simp⟩
        · have : t2 = t := by simpa using h2
          subst this
          refine ⟨k, hk, ?_⟩
          simp only
          rw [lookupShape_append_of_none _ _ _ _ hl]
          simp
      · intro t2 sh
        rw [tripIn_appendTripToShape, hinv.trips_iff t2 sh,
          shapeOfTrip_append_state trip_route st s k s.next_shape_id _ _ t2 hl]
        by_cases hkey : keyOfTrip? trip_route st t2 = some k
        · rw [if_pos hkey]
          have ht2notdone : t2 ∉ done := by
            intro hc
            obtain ⟨k3, hk3, hsome3⟩ := hinv.located t2 hc
            rw [hkey] at hk3
            have : k3 = k := by simpa using hk3.symm
            subst this
            rw [hl] at hsome3
            simp at hsome3
          have holdnone : shapeOfTrip trip_route st s t2 = none := by
            rw [shapeOfTrip_eq_bind, hkey]
            dsimp only [Option.bind]
            exact hl
          rw [holdnone]
          constructor
          · rintro (⟨_, hcontr⟩ | ⟨rfl, rfl⟩)
            · simp at hcontr
            · exact ⟨List.mem_append_right _ (by simp), rfl⟩
          · rintro ⟨hd, hsh⟩
            have hshv : sh = s.next_shape_id := (Option.some.inj hsh).symm
            rcases List.mem_append.mp hd with h2 | h2
            · exact absurd h2 ht2notdone
            · have ht2t : t2 = t := by simpa using h2
              exact Or.inr ⟨ht2t, hshv⟩
        · rw [if_neg hkey]
          have hne : t2 ≠ t := by
            intro hc
            rw [hc, hk] at hkey
            exact hkey rfl
          constructor
          · rintro (⟨hd, hsh⟩ | ⟨rfl, _⟩)
            · exact ⟨List.mem_append_left _ hd, hsh⟩
            · exact absurd rfl hne
          · rintro ⟨hd, hsh⟩
            rcases List.mem_append.mp hd with h2 | h2
            · exact Or.inl ⟨h2, hsh⟩
            · have : t2 = t := by simpa using h2
              exact absurd this hne

theorem dedupLoop_inv (trip_route : List (TripId × RouteId)) (st : List StopTimeRow) :
    ∀ (ts done : List TripId) (s s2 : DedupState),
    DedupInv trip_route st done s →
    dedupLoop trip_route st ts s = Except.ok s2 →
    DedupInv trip_route st (done ++ ts) s2 := by
  intro ts
  induction ts with
  | nil =>
    intro done s s2 hinv hloop
    unfold dedupLoop at hloop
    cases hloop
    simpa using hinv
  | cons t rest ih =>
    intro done s s2 hinv hloop
    unfold dedupLoop at hloop
    cases hstep : dedupStep trip_route st s t with
    | error e => rw [hstep] at hloop; simp at hloop
    | ok smid =>
      rw [hstep] at hloop
      have hmid := dedupStep_inv trip_route st done s smid t hinv hstep
      have := ih (done ++ [t]) smid s2 hmid hloop
      simpa [List.append_assoc] using this

theorem dedupInv_init (trip_route : List (TripId × RouteId)) (st : List StopTimeRow) :
    DedupInv trip_route st [] ⟨[], [], 1⟩ := by
  refine ⟨?_, ?_, ?_, ?_, ?_⟩
  · rfl
  · rfl
  · rfl
  · intro t ht; simp at ht
  · intro t sh
    constructor
    · intro h
      exact absurd h (tripIn_nil _ _)
    · rintro ⟨h, _⟩
      simp at h

theorem deduplicate_inv (trip_route : List (TripId × RouteId)) (st : List StopTimeRow)
    (s : DedupState) (h : deduplicate trip_route st = Except.ok s) :
    DedupInv trip_route st (allTripsIn st) s := by
  unfold deduplicate at h
  have := dedupLoop_inv trip_route st (allTripsIn st) [] ⟨[], [], 1⟩ s
    (dedupInv_init trip_route st) h
  simpa using this

-- ----- Dedup claim theorems (C1, C2, C10) -----

/-- C1: trips sharing a route and an identical ordered stop sequence get
the same shape id; trips with identical stop sequences but different
routes get different shape ids (the dedup key at lines 320-337 is the
pair (route_id, stop sequence), and distinct keys receive distinct
counter values). -/
theorem dedup_shape_by_route_and_sequence
    (trip_route : List (TripId × RouteId)) (st : List StopTimeRow) (s : DedupState)
    (t1 t2 : TripId) (r1 r2 : RouteId)
    (hded : deduplicate trip_route st = Except.ok s)
    (h1 : t1 ∈ st.map (fun r => r.trip_id)) (h2 : t2 ∈ st.map (fun r => r.trip_id))
    (hr1 : dictGet? trip_route t1 = some r1) (hr2 : dictGet? trip_route t2 = some r2)
    (hseq : stopSequenceOfTrip st t1 = stopSequenceOfTrip st t2) :
    (r1 = r2 → shapeOfTrip trip_route st s t1 = shapeOfTrip trip_route st s t2
       ∧ (shapeOfTrip trip_route st s t1).isSome) ∧
    (r1 ≠ r2 → shapeOfTrip trip_route st s t1 ≠ shapeOfTrip trip_route st s t2
       ∧ (shapeOfTrip trip_route st s t1).isSome
       ∧ (shapeOfTrip trip_route st s t2).isSome) := by
  have hinv := deduplicate_inv trip_route st s hded
  have hk1 : keyOfTrip? trip_route st t1 = some (r1, stopSequenceOfTrip st t1) := by
    unfold keyOfTrip?
    rw [hr1]
    rfl
  have hk2 : keyOfTrip? trip_route st t2 = some (r2, stopSequenceOfTrip st t2) := by
    unfold keyOfTrip?
    rw [hr2]
    rfl
  have hm1 : t1 ∈ allTripsIn st := (mem_allTripsIn st t1).mpr h1
  have hm2 : t2 ∈ allTripsIn st := (mem_allTripsIn st t2).mpr h2
  have hs1 : shapeOfTrip trip_route st s t1
      = lookupShape s.sequence_shape_dict (r1, stopSequenceOfTrip st t1) := by
    rw [shapeOfTrip_eq_bind, hk1]
    rfl
  have hs2 : shapeOfTrip trip_route st s t2
      = lookupShape s.sequence_shape_dict (r2, stopSequenceOfTrip st t2) := by
    rw [shapeOfTrip_eq_bind, hk2]
    rfl
  obtain ⟨k1', hk1', hsome1⟩ := hinv.located t1 hm1
  obtain ⟨k2', hk2', hsome2⟩ := hinv.located t2 hm2
  rw [hk1] at hk1'
  rw [hk2] at hk2'
  have hk1e : k1' = (r1, stopSequenceOfTrip st t1) := by simpa using hk1'.symm
  have hk2e : k2' = (r2, stopSequenceOfTrip st t2) := by simpa using hk2'.symm
  subst hk1e
  subst hk2e
  obtain ⟨v1, hv1⟩ := Option.isSome_iff_exists.mp hsome1
  obtain ⟨v2, hv2⟩ := Option.isSome_iff_exists.mp hsome2
  have hnd : (s.sequence_shape_dict.map Prod.snd).Nodup := by
    rw [hinv.ids]
    exact range'_nodup _ _
  constructor
  · intro hr
    subst hr
    rw [hs1, hs2, hseq]
    exact ⟨rfl, by rw [← hseq, hv1]; rfl⟩
  · intro hr
    refine ⟨?_, by rw [hs1, hv1]; rfl, by rw [hs2, hv2]; rfl⟩
    rw [hs1, hs2, hv1, hv2]
    intro hc
    have hveq : v1 = v2 := Option.some.inj hc
    subst hveq
    have hmem1 := lookupShape_mem _ _ _ hv1
    have hmem2 := lookupShape_mem _ _ _ hv2
    have := snd_nodup_inj s.sequence_shape_dict hnd _ _ hmem1 hmem2 rfl
    have hfst := congrArg Prod.fst this
    simp only at hfst
    exact hr (congrArg Prod.fst hfst)

/-- C2: after the dedup phase the assigned shape ids are exactly
1..numshapes in dictionary insertion order, the keys are the distinct
(route_id, stop sequence) pairs of the trips of stop_times in first-seen
order, and numshapes equals their count (lines 316-340). -/
theorem dedup_ids_dense_first_seen
    (trip_route : List (TripId × RouteId)) (st : List StopTimeRow) (s : DedupState)
    (hded : deduplicate trip_route st = Except.ok s) :
    s.sequence_shape_dict.map Prod.fst = distinctShapeKeys trip_route st ∧
    s.sequence_shape_dict.map Prod.snd = List.range' 1 (numshapes s) ∧
    numshapes s = (distinctShapeKeys trip_route st).length := by
  have hinv := deduplicate_inv trip_route st s hded
  have hkeys : s.sequence_shape_dict.map Prod.fst = distinctShapeKeys trip_route st := by
    unfold distinctShapeKeys
    exact hinv.keys
  have hnum : numshapes s = s.sequence_shape_dict.length := by
    unfold numshapes
    rw [hinv.next]
    omega
  have hlen : (distinctShapeKeys trip_route st).length = s.sequence_shape_dict.length := by
    rw [← hkeys, List.length_map]
  exact ⟨hkeys, by rw [hinv.ids, hnum], by rw [hnum, hlen]⟩

theorem dedupLoop_error_of_missing (trip_route : List (TripId × RouteId))
    (st : List StopTimeRow) (t : TripId) (hkey : keyOfTrip? trip_route st t = none) :
    ∀ (ts : List TripId) (s : DedupState), t ∈ ts →
    dedupLoop trip_route st ts s = Except.error () := by
  intro ts
  induction ts with
  | nil => intro s h; simp at h
  | cons a rest ih =>
    intro s hmem
    by_cases ha : a = t
    · subst ha
      unfold dedupLoop dedupStep
      rw [hkey]
    · have hrest : t ∈ rest := by
        rcases List.mem_cons.mp hmem with h | h
        · exact absurd h.symm ha
        · exact h
      unfold dedupLoop
      cases hstep : dedupStep trip_route st s a with
      | error e => cases e; rfl
      | ok s2 => exact ih s2 hrest

/-- C10: a trip id present in stop_times but absent from the trips table
makes the lookup trip_route_dict[trip] at line 329 raise a KeyError that
no handler catches (the try at line 331 begins after it), so the run
aborts; the dedup phase ends in the error state. -/
theorem missing_trip_row_aborts (trip_route : List (TripId × RouteId))
    (st : List StopTimeRow) (t : TripId)
    (h1 : t ∈ st.map (fun r => r.trip_id)) (h2 : dictGet? trip_route t = none) :
    deduplicate trip_route st = Except.error () := by
  have hkey : keyOfTrip? trip_route st t = none := by
    unfold keyOfTrip?
    rw [h2]
    rfl
  have hm : t ∈ allTripsIn st := (mem_allTripsIn st t).mpr h1
  exact dedupLoop_error_of_missing trip_route st t hkey (allTripsIn st) _ hm

-- ----- Trips-table write machinery (C7) -----

theorem foldl_nested_eq (d : List (Nat × List TripId)) :
    ∀ (trips : List TripRow),
    d.foldl (fun acc e => e.2.foldl (fun acc2 t => updateTripShapeField acc2 t e.1) acc) trips
      = (concatMap (fun e => e.2.map (fun t => (t, e.1))) d).foldl
          (fun acc p => updateTripShapeField acc p.1 p.2) trips := by
  induction d with
  | nil => intro trips; rfl
  | cons e rest ih =>
    intro trips
    simp only [List.foldl_cons, concatMap, List.foldl_append]
    rw [ih, List.foldl_map]

theorem foldl_update_eq_map (ps : List (TripId × Nat)) :
    ∀ (trips : List TripRow),
    ps.foldl (fun acc p => updateTripShapeField acc p.1 p.2) trips
      = trips.map (fun row => ps.foldl applyShapeWrite row) := by
  induction ps with
  | nil => intro trips; simp
  | cons p rest ih =>
    intro trips
    simp only [List.foldl_cons]
    rw [ih]
    unfold updateTripShapeField
    rw [List.map_map]
    rfl

theorem applyShapeWrite_trip_id (row : TripRow) (p : TripId × Nat) :
    (applyShapeWrite row p).trip_id = row.trip_id := by
  unfold applyShapeWrite
  split <;> rfl

theorem applyWrites_nomem (ps : List (TripId × Nat)) :
    ∀ (row : TripRow), (∀ p ∈ ps, p.1 ≠ row.trip_id) →
    ps.foldl applyShapeWrite row = row := by
  induction ps with
  | nil => intro row _; rfl
  | cons p rest ih =>
    intro row h
    simp only [List.foldl_cons]
    have hw : applyShapeWrite row p = row := by
      unfold applyShapeWrite
      rw [if_neg (fun hc => h p (List.mem_cons_self _ _) hc.symm)]
    rw [hw]
    exact ih row (fun q hq => h q (List.mem_cons_of_mem _ hq))

theorem applyWrites_const (ps : List (TripId × Nat)) :
    ∀ (row : TripRow) (sh : Nat),
    (∀ p ∈ ps, p.1 = row.trip_id → p.2 = sh) →
    row.shape_id = some (toString sh) →
    ps.foldl applyShapeWrite row = row := by
  induction ps with
  | nil => intro row _ _ _; rfl
  | cons p rest ih =>
    intro row sh h hid
    simp only [List.foldl_cons]
    by_cases hp : row.trip_id = p.1
    · have hval : p.2 = sh := h p (List.mem_cons_self _ _) hp.symm
      have hw : applyShapeWrite row p = row := by
        unfold applyShapeWrite
        rw [if_pos hp, hval, ← hid]
      rw [hw]
      exact ih row sh (fun q hq => h q (List.mem_cons_of_mem _ hq)) hid
    · have hw : applyShapeWrite row p = row := by
        unfold applyShapeWrite
        rw [if_neg hp]
      rw [hw]
      exact ih row sh (fun q hq => h q (List.mem_cons_of_mem _ hq)) hid

theorem applyWrites_set (ps : List (TripId × Nat)) :
    ∀ (row : TripRow) (sh : Nat),
    (∀ p ∈ ps, p.1 = row.trip_id → p.2 = sh) →
    (row.trip_id, sh) ∈ ps →
    ps.foldl applyShapeWrite row = { row with shape_id := some (toString sh) } := by
  induction ps with
  | nil => intro row sh _ hmem; simp at hmem
  | cons p rest ih =>
    intro row sh h hmem
    simp only [List.foldl_cons]
    by_cases hp : p.1 = row.trip_id
    · have hval : p.2 = sh := h p (List.mem_cons_self _ _) hp
      have hw : applyShapeWrite row p = { row with shape_id := some (toString sh) } := by
        unfold applyShapeWrite
        rw [if_pos hp.symm, hval]
      rw [hw]
      exact applyWrites_const rest _ sh
        (fun q hq hqt => h q (List.mem_cons_of_mem _ hq) hqt) rfl
    · have hw : applyShapeWrite row p = row := by
        unfold applyShapeWrite
        rw [if_neg (fun hc => hp hc.symm)]
      rw [hw]
      have hrest : (row.trip_id, sh) ∈ rest := by
        rcases List.mem_cons.mp hmem with h2 | h2
        · exact absurd (congrArg Prod.fst h2.symm) hp
        · exact h2
      exact ih row sh (fun q hq => h q (List.mem_cons_of_mem _ hq)) hrest

theorem mem_writePairs (s : DedupState) (t : TripId) (sh : Nat) :
    (t, sh) ∈ writePairs s ↔ tripIn s.shape_trip_dict t sh := by
  unfold writePairs
  rw [mem_concatMap]
  constructor
  · rintro ⟨e, he, hmem⟩
    rw [List.mem_map] at hmem
    obtain ⟨t', ht', heq⟩ := hmem
    have h1 : t' = t := congrArg Prod.fst heq
    have h2 : e.1 = sh := congrArg Prod.snd heq
    subst h1
    refine ⟨e.2, ?_, ht'⟩
    have : (sh, e.2) = e := by
      cases e
      simp only at h2
      simp [h2]
    rw [this]
    exact he
  · rintro ⟨l, hl, ht⟩
    exact ⟨(sh, l), hl, List.mem_map.mpr ⟨t, ht, rfl⟩⟩

/-- C7: after the dedup phase, the trips-table update is a pointwise map
over the table; every row whose trip id occurs in stop_times receives
the non-null string form of its assigned shape id, every other row is
unchanged; and the resulting trips table of the whole run does not
depend on anything the routing stage does (the writes are committed and
the connection closed, line 358, before dispatch starts). -/
theorem trips_table_shape_writes (trips : List TripRow) (st : List StopTimeRow)
    (s : DedupState)
    (hded : deduplicate (trip_route_dict trips) st = Except.ok s) :
    updateTripsTable trips s
        = trips.map (fun row => (writePairs s).foldl applyShapeWrite row) ∧
    (∀ row ∈ trips,
       (row.trip_id ∈ st.map (fun r => r.trip_id) →
          ∃ sh, shapeOfTrip (trip_route_dict trips) st s row.trip_id = some sh ∧
            (writePairs s).foldl applyShapeWrite row
              = { row with shape_id := some (toString sh) }) ∧
       (row.trip_id ∉ st.map (fun r => r.trip_id) →
          (writePairs s).foldl applyShapeWrite row = row)) ∧
    (∀ (rtOf : RouteId → Int) (latlon : List (StopId × (Rat × Rat)))
       (locf : List (StopId × LocFields)) (ds : String)
       (stT saT : List Int) (solver : Solver),
       Except.map Step1Out.trips_table
          (runStep1 trips st rtOf latlon locf ds stT saT solver)
         = Except.ok (updateTripsTable trips s)) := by
  have hinv := deduplicate_inv (trip_route_dict trips) st s hded
  have hpart1 : updateTripsTable trips s
      = trips.map (fun row => (writePairs s).foldl applyShapeWrite row) := by
    unfold updateTripsTable writePairs
    rw [foldl_nested_eq, foldl_update_eq_map]
  refine ⟨hpart1, ?_, ?_⟩
  · intro row _
    constructor
    · intro hpres
      have hm : row.trip_id ∈ allTripsIn st := (mem_allTripsIn st _).mpr hpres
      obtain ⟨k, hk, hsome⟩ := hinv.located row.trip_id hm
      obtain ⟨v, hv⟩ := Option.isSome_iff_exists.mp hsome
      have hshape : shapeOfTrip (trip_route_dict trips) st s row.trip_id = some v := by
        rw [shapeOfTrip_eq_bind, hk]
        dsimp only [Option.bind]
        exact hv
      refine ⟨v, hshape, ?_⟩
      have hall : ∀ p ∈ writePairs s, p.1 = row.trip_id → p.2 = v := by
        intro p hp hpt
        have : tripIn s.shape_trip_dict p.1 p.2 := by
          rw [← mem_writePairs]
          exact hp
        rw [hinv.trips_iff] at this
        rw [hpt] at this
        have := this.2
        rw [hshape] at this
        exact (Option.some.inj this).symm
      have hmem : (row.trip_id, v) ∈ writePairs s := by
        rw [mem_writePairs, hinv.trips_iff]
        exact ⟨hm, hshape⟩
      exact applyWrites_set _ _ _ hall hmem
    · intro habs
      apply applyWrites_nomem
      intro p hp hpt
      have : tripIn s.shape_trip_dict p.1 p.2 := by
        rw [← mem_writePairs]
        exact hp
      rw [hinv.trips_iff] at this
      have := this.1
      rw [hpt] at this
      exact habs ((mem_allTripsIn st _).mp this)
  · intro rtOf latlon locf ds stT saT solver
    unfold runStep1
    rw [hded]
    rfl

-- ----- Chunking lemmas -----

theorem chunkGo_concat {α : Type} (n : Nat) :
    ∀ (l : List α), l.length ≤ n → concatMap id (chunkGo n l) = l := by
  induction n with
  | zero =>
    intro l hl
    cases l with
    | nil => rfl
    | cons x xs => simp at hl
  | succ m ih =>
    intro l hl
    cases l with
    | nil => rfl
    | cons x xs =>
      show List.take 100 (x :: xs) ++ concatMap id (chunkGo m (List.drop 100 (x :: xs)))
        = x :: xs
      have hlen2 : (List.drop 100 (x :: xs)).length ≤ m := by
        rw [List.length_drop]
        simp only [List.length_cons] at hl ⊢
        omega
      rw [ih (List.drop 100 (x :: xs)) hlen2]
      exact List.take_append_drop 100 (x :: xs)

theorem mem_of_mem_chunkGo {α : Type} (n : Nat) (l : List α) (hl : l.length ≤ n)
    (c : List α) (hc : c ∈ chunkGo n l) (x : α) (hx : x ∈ c) : x ∈ l := by
  rw [← chunkGo_concat n l hl]
  exact (mem_concatMap id (chunkGo n l) x).mpr ⟨c, hc, hx⟩

theorem exists_chunk_of_mem {α : Type} (n : Nat) (l : List α) (hl : l.length ≤ n)
    (x : α) (hx : x ∈ l) : ∃ c ∈ chunkGo n l, x ∈ c := by
  have := (mem_concatMap id (chunkGo n l) x).mp (by rw [chunkGo_concat n l hl]; exact hx)
  exact this

-- ----- Chunk-level street lemmas -----

theorem mem_chunkStreetGeoms (solver : Solver) (c : List (ShapeKey × Nat)) (g : GeomEntry)
    (hg : g ∈ chunkStreetGeoms solver c) : ∃ kv ∈ c, g = ⟨kv.2, Geom.streetPath⟩ := by
  unfold chunkStreetGeoms at hg
  cases hsol : solver c with
  | solveFailed => rw [hsol] at hg; simp at hg
  | solved has u =>
    rw [hsol] at hg
    obtain ⟨kv, hkv, heq⟩ := List.mem_map.mp hg
    exact ⟨kv, (List.mem_filter.mp hkv).1, heq.symm⟩

theorem mem_chunkNoRoute (solver : Solver) (c : List (ShapeKey × Nat)) (x : Nat)
    (hx : x ∈ chunkNoRoute solver c) : ∃ kv ∈ c, kv.2 = x := by
  unfold chunkNoRoute at hx
  cases hsol : solver c with
  | solveFailed =>
    rw [hsol] at hx
    unfold chunkShapeIds at hx
    obtain ⟨kv, hkv, heq⟩ := List.mem_map.mp hx
    exact ⟨kv, hkv, heq⟩
  | solved has u =>
    rw [hsol] at hx
    obtain ⟨kv, hkv, heq⟩ := List.mem_map.mp hx
    exact ⟨kv, (List.mem_filter.mp hkv).1, heq⟩

theorem chunk_street_filter_noRoute (solver : Solver) (c : List (ShapeKey × Nat))
    (hnd : (c.map Prod.snd).Nodup) (kv : ShapeKey × Nat) (hkv : kv ∈ c) :
    ((chunkStreetGeoms solver c).filter (fun g => g.shape_id = kv.2)
      = (match solver c with
         | SolveOutcome.solveFailed => []
         | SolveOutcome.solved has _ =>
             if has kv.2 then [⟨kv.2, Geom.streetPath⟩] else ([] : List GeomEntry))) ∧
    (kv.2 ∈ chunkNoRoute solver c
      ↔ (solver c = SolveOutcome.solveFailed ∨
         ∃ has u, solver c = SolveOutcome.solved has u ∧ has kv.2 = false)) := by
  cases hsol : solver c with
  | solveFailed =>
    constructor
    · unfold chunkStreetGeoms
      rw [hsol]
      rfl
    · unfold chunkNoRoute chunkShapeIds
      rw [hsol]
      constructor
      · intro _
        exact Or.inl rfl
      · intro _
        exact List.mem_map.mpr ⟨kv, hkv, rfl⟩
  | solved has u =>
    constructor
    · unfold chunkStreetGeoms
      rw [hsol]
      rw [List.filter_map]
      have hcomp : ((fun g => decide (GeomEntry.shape_id g = kv.2)) ∘
          (fun kv2 => (⟨kv2.2, Geom.streetPath⟩ : GeomEntry)))
          = fun kv2 : ShapeKey × Nat => decide (kv2.2 = kv.2) := by
        funext kv2
        rfl
      rw [hcomp]
      rw [List.filter_comm]
      have hsingle : c.filter (fun x => x.2 = kv.2) = [kv] :=
        filter_snd_eq_single c hnd kv hkv
      have hconv : c.filter (fun kv2 => decide (kv2.2 = kv.2)) = [kv] := hsingle
      rw [hconv]
      rw [List.filter_cons]
      by_cases hh : has kv.2
      · simp [hh]
      · simp [hh]
    · unfold chunkNoRoute
      rw [hsol]
      constructor
      · intro hmem
        obtain ⟨kv2, hkv2, heq⟩ := List.mem_map.mp hmem
        have hkv2c := (List.mem_filter.mp hkv2).1
        have hkv2f := (List.mem_filter.mp hkv2).2
        have : kv2 = kv := snd_nodup_inj c hnd kv2 kv hkv2c hkv heq
        subst this
        right
        refine ⟨has, u, rfl, ?_⟩
        simpa using hkv2f
      · rintro (hc | ⟨has2, u2, heq, hfalse⟩)
        · exact absurd hc (by simp)
        · injection heq with h1 h2
          subst h1
          apply List.mem_map.mpr
          refine ⟨kv, ?_, rfl⟩
          apply List.mem_filter.mpr
          exact ⟨hkv, by simp [hfalse]⟩

-- ----- Master street lemma over all chunks -----

theorem street_master (solver : Solver) (n : Nat) :
    ∀ (l : List (ShapeKey × Nat)), l.length ≤ n → (l.map Prod.snd).Nodup →
    ∀ c ∈ chunkGo n l, ∀ kv ∈ c,
    ((concatMap (chunkStreetGeoms solver) (chunkGo n l)).filter
        (fun g => g.shape_id = kv.2)
      = (match solver c with
         | SolveOutcome.solveFailed => []
         | SolveOutcome.solved has _ =>
             if has kv.2 then [⟨kv.2, Geom.streetPath⟩] else ([] : List GeomEntry))) ∧
    (kv.2 ∈ concatMap (chunkNoRoute solver) (chunkGo n l)
      ↔ (solver c = SolveOutcome.solveFailed ∨
         ∃ has u, solver c = SolveOutcome.solved has u ∧ has kv.2 = false)) := by
  induction n with
  | zero =>
    intro l hl _ c hc
    cases l with
    | nil => simp [chunkGo] at hc
    | cons x xs => simp at hl
  | succ m ih =>
    intro l hl hnd c hc kv hkv
    cases l with
    | nil => simp [chunkGo] at hc
    | cons x xs =>
      have hchunks : chunkGo (m + 1) (x :: xs)
          = (List.take 100 (x :: xs)) :: chunkGo m (List.drop 100 (x :: xs)) := rfl
      have hdroplen : (List.drop 100 (x :: xs)).length ≤ m := by
        rw [List.length_drop]
        simp only [List.length_cons] at hl ⊢
        omega
      have hmapsplit : (x :: xs).map Prod.snd
          = (List.take 100 (x :: xs)).map Prod.snd
            ++ (List.drop 100 (x :: xs)).map Prod.snd := by
        rw [← List.map_append, List.take_append_drop]
      rw [hmapsplit] at hnd
      have hndtake := (List.nodup_append.mp hnd).1
      have hnddrop := (List.nodup_append.mp hnd).2.1
      have hdisj := (List.nodup_append.mp hnd).2.2
      rw [hchunks] at hc
      rw [hchunks]
      simp only [concatMap]
      rcases List.mem_cons.mp hc with rfl | hcrest
      · -- kv is in the first chunk
        have hkvtake : kv.2 ∈ (List.take 100 (x :: xs)).map Prod.snd :=
          List.mem_map_of_mem Prod.snd hkv
        have hnotdrop : kv.2 ∉ (List.drop 100 (x :: xs)).map Prod.snd :=
          fun hmem => hdisj hkvtake hmem
        have hrest_geoms : (concatMap (chunkStreetGeoms solver)
            (chunkGo m (List.drop 100 (x :: xs)))).filter
            (fun g => g.shape_id = kv.2) = [] := by
          apply List.filter_eq_nil_iff.mpr
          intro g hg
          obtain ⟨c2, hc2, hgc2⟩ := (mem_concatMap _ _ g).mp hg
          obtain ⟨kv2, hkv2, heq⟩ := mem_chunkStreetGeoms solver c2 g hgc2
          have hkv2drop := mem_of_mem_chunkGo m _ hdroplen c2 hc2 kv2 hkv2
          simp only [decide_eq_true_eq]
          intro hsh
          rw [heq] at hsh
          exact hnotdrop (hsh ▸ List.mem_map_of_mem Prod.snd hkv2drop)
        have hrest_nr : kv.2 ∉ concatMap (chunkNoRoute solver)
            (chunkGo m (List.drop 100 (x :: xs))) := by
          intro hmem
          obtain ⟨c2, hc2, hxc2⟩ := (mem_concatMap _ _ kv.2).mp hmem
          obtain ⟨kv2, hkv2, heq⟩ := mem_chunkNoRoute solver c2 kv.2 hxc2
          have hkv2drop := mem_of_mem_chunkGo m _ hdroplen c2 hc2 kv2 hkv2
          exact hnotdrop (heq ▸ List.mem_map_of_mem Prod.snd hkv2drop)
        obtain ⟨hA, hB⟩ := chunk_street_filter_noRoute solver _ hndtake kv hkv
        constructor
        · rw [List.filter_append, hA, hrest_geoms, List.append_nil]
        · rw [List.mem_append]
          constructor
          · rintro (h | h)
            · exact hB.mp h
            · exact absurd h hrest_nr
          · intro h
            exact Or.inl (hB.mpr h)
      · -- kv is in a later chunk
        have hkvdrop : kv ∈ List.drop 100 (x :: xs) :=
          mem_of_mem_chunkGo m _ hdroplen c hcrest kv hkv
        have hkvdropsnd : kv.2 ∈ (List.drop 100 (x :: xs)).map Prod.snd :=
          List.mem_map_of_mem Prod.snd hkvdrop
        have hnottake : kv.2 ∉ (List.take 100 (x :: xs)).map Prod.snd :=
          fun hmem => hdisj hmem hkvdropsnd
        have htake_geoms : (chunkStreetGeoms solver (List.take 100 (x :: xs))).filter
            (fun g => g.shape_id = kv.2) = [] := by
          apply List.filter_eq_nil_iff.mpr
          intro g hg
          obtain ⟨kv2, hkv2, heq⟩ := mem_chunkStreetGeoms solver _ g hg
          simp only [decide_eq_true_eq]
          intro hsh
          rw [heq] at hsh
          exact hnottake (hsh ▸ List.mem_map_of_mem Prod.snd hkv2)
        have htake_nr : kv.2 ∉ chunkNoRoute solver (List.take 100 (x :: xs)) := by
          intro hmem
          obtain ⟨kv2, hkv2, heq⟩ := mem_chunkNoRoute solver _ kv.2 hmem
          exact hnottake (heq ▸ List.mem_map_of_mem Prod.snd hkv2)
        obtain ⟨hA, hB⟩ := ih (List.drop 100 (x :: xs)) hdroplen hnddrop c hcrest kv hkv
        constructor
        · rw [List.filter_append, htake_geoms, hA, List.nil_append]
        · rw [List.mem_append]
          constructor
          · rintro (h | h)
            · exact absurd h htake_nr
            · exact hB.mp h
          · intro h
            exact Or.inr (hB.mpr h)

-- ----- generateShapes case lemmas -----

theorem generateShapes_both_empty (inp : DispatchIn) (streetTypes straightTypes : List Int)
    (solver : Solver) (hS : streetTypes = []) (hsa : straightTypes = []) :
    generateShapes inp streetTypes straightTypes solver = ⟨[], [], [], [], [], []⟩ := by
  unfold generateShapes
  simp [hS, hsa]

theorem generateShapes_straight_only (inp : DispatchIn)
    (streetTypes straightTypes : List Int) (solver : Solver)
    (hS : streetTypes = []) (hsa : straightTypes ≠ []) :
    generateShapes inp streetTypes straightTypes solver
      = ⟨straightGeomsL inp straightTypes [], straightPointsL inp straightTypes [],
         [], [], [], straightBadL inp straightTypes []⟩ := by
  unfold generateShapes
  simp [hS, hsa]

theorem generateShapes_street_only (inp : DispatchIn)
    (streetTypes straightTypes : List Int) (solver : Solver)
    (hS : streetTypes ≠ [])
    (hout : straightTypes = [] ∧ noRouteGeneratedL inp streetTypes solver = []) :
    generateShapes inp streetTypes straightTypes solver
      = ⟨streetGeomsL inp streetTypes solver, streetPointsL inp streetTypes solver,
         noRouteGeneratedL inp streetTypes solver, streetBadStopsL inp streetTypes,
         unlocatedStopsL inp streetTypes solver, []⟩ := by
  unfold generateShapes
  simp only [if_neg hS]
  rw [if_pos hout]

theorem generateShapes_full (inp : DispatchIn)
    (streetTypes straightTypes : List Int) (solver : Solver)
    (hS : streetTypes ≠ [])
    (hout : ¬ (straightTypes = [] ∧ noRouteGeneratedL inp streetTypes solver = [])) :
    generateShapes inp streetTypes straightTypes solver
      = ⟨streetGeomsL inp streetTypes solver
           ++ straightGeomsL inp straightTypes (noRouteGeneratedL inp streetTypes solver),
         streetPointsL inp streetTypes solver
           ++ straightPointsL inp straightTypes (noRouteGeneratedL inp streetTypes solver),
         noRouteGeneratedL inp streetTypes solver, streetBadStopsL inp streetTypes,
         unlocatedStopsL inp streetTypes solver,
         straightBadL inp straightTypes (noRouteGeneratedL inp streetTypes solver)⟩ := by
  unfold generateShapes
  simp only [if_neg hS]
  rw [if_neg hout]

-- ----- Membership bound lemmas for dispatch outputs -----

theorem sequencesStreets_sub (inp : DispatchIn) (streetTypes : List Int)
    (kv : ShapeKey × Nat) (hkv : kv ∈ sequencesStreets inp streetTypes) :
    kv ∈ inp.sequence_shape_dict :=
  (List.mem_filter.mp hkv).1

theorem sequencesStreets_nodup (inp : DispatchIn) (streetTypes : List Int)
    (hnd : (inp.sequence_shape_dict.map Prod.snd).Nodup) :
    ((sequencesStreets inp streetTypes).map Prod.snd).Nodup := by
  have hsub : List.Sublist (sequencesStreets inp streetTypes) inp.sequence_shape_dict :=
    List.filter_sublist _
  exact (hsub.map Prod.snd).nodup hnd

theorem mem_streetGeomsL (inp : DispatchIn) (streetTypes : List Int) (solver : Solver)
    (g : GeomEntry) (hg : g ∈ streetGeomsL inp streetTypes solver) :
    ∃ kv ∈ sequencesStreets inp streetTypes, g = ⟨kv.2, Geom.streetPath⟩ := by
  unfold streetGeomsL streetChunks chunkBy100 at hg
  obtain ⟨c, hc, hgc⟩ := (mem_concatMap _ _ g).mp hg
  obtain ⟨kv, hkv, heq⟩ := mem_chunkStreetGeoms solver c g hgc
  exact ⟨kv, mem_of_mem_chunkGo _ _ (le_refl _) c hc kv hkv, heq⟩

theorem mem_noRouteGeneratedL (inp : DispatchIn) (streetTypes : List Int) (solver : Solver)
    (x : Nat) (hx : x ∈ noRouteGeneratedL inp streetTypes solver) :
    ∃ kv ∈ sequencesStreets inp streetTypes, kv.2 = x := by
  unfold noRouteGeneratedL streetChunks chunkBy100 at hx
  obtain ⟨c, hc, hxc⟩ := (mem_concatMap _ _ x).mp hx
  obtain ⟨kv, hkv, heq⟩ := mem_chunkNoRoute solver c x hxc
  exact ⟨kv, mem_of_mem_chunkGo _ _ (le_refl _) c hc kv hkv, heq⟩

theorem mem_straightGeomsL (inp : DispatchIn) (straightTypes : List Int) (nr : List Nat)
    (g : GeomEntry) (hg : g ∈ straightGeomsL inp straightTypes nr) :
    ∃ kv ∈ inp.sequence_shape_dict, g.shape_id = kv.2 := by
  unfold straightGeomsL straightSeqs at hg
  obtain ⟨kv, hkv, heq⟩ := List.mem_map.mp hg
  exact ⟨kv, (List.mem_filter.mp hkv).1, by rw [← heq]⟩

-- ----- Straight-pass filter lemma -----

theorem straightGeomsL_filter (inp : DispatchIn) (straightTypes : List Int)
    (nr : List Nat) (kv : ShapeKey × Nat)
    (hnd : (inp.sequence_shape_dict.map Prod.snd).Nodup)
    (hkv : kv ∈ inp.sequence_shape_dict) :
    (straightGeomsL inp straightTypes nr).filter (fun g => g.shape_id = kv.2)
      = if straightCond inp straightTypes nr kv
        then [⟨kv.2, Geom.straightLine (straightVerticesForKey inp kv)⟩]
        else [] := by
  unfold straightGeomsL straightSeqs
  rw [List.filter_map]
  have hcomp : ((fun g => decide (GeomEntry.shape_id g = kv.2)) ∘
      (fun kv2 : ShapeKey × Nat =>
        (⟨kv2.2, Geom.straightLine (straightVerticesForKey inp kv2)⟩ : GeomEntry)))
      = fun kv2 : ShapeKey × Nat => decide (kv2.2 = kv.2) := by
    funext kv2
    rfl
  rw [hcomp, List.filter_comm]
  have hsingle : inp.sequence_shape_dict.filter (fun kv2 => decide (kv2.2 = kv.2)) = [kv] :=
    filter_snd_eq_single inp.sequence_shape_dict hnd kv hkv
  rw [hsingle, List.filter_cons]
  by_cases hcond : straightCond inp straightTypes nr kv
  · simp [hcond]
  · simp [hcond]

-- ----- C3: whole-batch Solve failure -----

/-- C3: when the Solve call for a whole chunk raises, every shape of the
chunk joins NoRouteGenerated (line 735), processing continues with the
other chunks (any shape the solver routes in a successfully solved chunk
still reaches the output), and each failed shape ends with exactly one
geometry in the final output, a straight-line one. -/
theorem solve_failed_batch_straight_fallback
    (inp : DispatchIn) (streetTypes straightTypes : List Int) (solver : Solver)
    (c : List (ShapeKey × Nat)) (kv : ShapeKey × Nat)
    (hnd : (inp.sequence_shape_dict.map Prod.snd).Nodup)
    (hc : c ∈ streetChunks inp streetTypes)
    (hkv : kv ∈ c)
    (hfail : solver c = SolveOutcome.solveFailed) :
    kv.2 ∈ (generateShapes inp streetTypes straightTypes solver).noRoute ∧
    ((generateShapes inp streetTypes straightTypes solver).geoms.filter
        (fun g => g.shape_id = kv.2))
      = [⟨kv.2, Geom.straightLine (straightVerticesForKey inp kv)⟩] ∧
    (∀ c2 ∈ streetChunks inp streetTypes, ∀ has u,
       solver c2 = SolveOutcome.solved has u →
       ∀ kv2 ∈ c2, has kv2.2 = true →
       (⟨kv2.2, Geom.streetPath⟩ : GeomEntry)
         ∈ (generateShapes inp streetTypes straightTypes solver).geoms) := by
  have hkvseq : kv ∈ sequencesStreets inp streetTypes := by
    unfold streetChunks chunkBy100 at hc
    exact mem_of_mem_chunkGo _ _ (le_refl _) c hc kv hkv
  have hS : streetTypes ≠ [] := by
    have := (List.mem_filter.mp hkvseq).2
    simp only [decide_eq_true_eq] at this
    exact List.ne_nil_of_mem this
  have hndseq : ((sequencesStreets inp streetTypes).map Prod.snd).Nodup :=
    sequencesStreets_nodup inp streetTypes hnd
  have hmaster := street_master solver (sequencesStreets inp streetTypes).length
    (sequencesStreets inp streetTypes) (le_refl _) hndseq c hc kv hkv
  have hfilterStreet : (streetGeomsL inp streetTypes solver).filter
      (fun g => g.shape_id = kv.2) = [] := by
    have := hmaster.1
    rw [hfail] at this
    exact this
  have hnrmem : kv.2 ∈ noRouteGeneratedL inp streetTypes solver := by
    have := hmaster.2
    exact this.mpr (Or.inl hfail)
  have hout : ¬ (straightTypes = [] ∧ noRouteGeneratedL inp streetTypes solver = []) := by
    rintro ⟨_, hnil⟩
    rw [hnil] at hnrmem
    simp at hnrmem
  rw [generateShapes_full inp streetTypes straightTypes solver hS hout]
  refine ⟨hnrmem, ?_, ?_⟩
  · simp only
    rw [List.filter_append, hfilterStreet, List.nil_append]
    rw [straightGeomsL_filter inp straightTypes _ kv hnd
      (sequencesStreets_sub inp streetTypes kv hkvseq)]
    rw [if_pos ?_]
    unfold straightCond
    simp [hnrmem]
  · intro c2 hc2 has u hsol2 kv2 hkv2 hhas
    simp only
    apply List.mem_append_left
    unfold streetGeomsL
    apply (mem_concatMap _ _ _).mpr
    refine ⟨c2, hc2, ?_⟩
    unfold chunkStreetGeoms
    rw [hsol2]
    apply List.mem_map.mpr
    refine ⟨kv2, ?_, rfl⟩
    exact List.mem_filter.mpr ⟨hkv2, by simp [hhas]⟩

-- ----- C4: at most one geometry per shape (amended with disjointness) -----

/-- C4 (amended): when the configured street and straight route-type
sets are disjoint, the final output holds at most one geometry per
shape, and never one from each method.  (Without disjointness the claim
fails, see the counterexample theorem.) -/
theorem at_most_one_geometry_per_shape
    (inp : DispatchIn) (streetTypes straightTypes : List Int) (solver : Solver)
    (hnd : (inp.sequence_shape_dict.map Prod.snd).Nodup)
    (hdisj : ∀ ty : Int, ty ∈ streetTypes → ty ∉ straightTypes) :
    ∀ sh : Nat, ((generateShapes inp streetTypes straightTypes solver).geoms.filter
      (fun g => g.shape_id = sh)).length ≤ 1 := by
  intro sh
  by_cases hS : streetTypes = []
  · by_cases hsa : straightTypes = []
    · rw [generateShapes_both_empty inp streetTypes straightTypes solver hS hsa]
      simp
    · rw [generateShapes_straight_only inp streetTypes straightTypes solver hS hsa]
      simp only
      by_cases hmem : ∃ kv ∈ inp.sequence_shape_dict, kv.2 = sh
      · obtain ⟨kv, hkv, hkvsh⟩ := hmem
        subst hkvsh
        rw [straightGeomsL_filter inp straightTypes [] kv hnd hkv]
        by_cases hcond : straightCond inp straightTypes [] kv
        · rw [if_pos hcond]; simp
        · rw [if_neg hcond]; simp
      · have : (straightGeomsL inp straightTypes []).filter
            (fun g => g.shape_id = sh) = [] := by
          apply List.filter_eq_nil_iff.mpr
          intro g hg
          obtain ⟨kv, hkv, heq⟩ := mem_straightGeomsL inp straightTypes [] g hg
          simp only [decide_eq_true_eq]
          intro hsh
          exact hmem ⟨kv, hkv, by rw [← heq, hsh]⟩
        rw [this]
        simp
  · have hstreet_nil_of_nomem : ∀ x : Nat, x ∉ (sequencesStreets inp streetTypes).map Prod.snd →
        (streetGeomsL inp streetTypes solver).filter (fun g => g.shape_id = x) = []
          ∧ x ∉ noRouteGeneratedL inp streetTypes solver := by
      intro x hx
      constructor
      · apply List.filter_eq_nil_iff.mpr
        intro g hg
        obtain ⟨kv2, hkv2, heq⟩ := mem_streetGeomsL inp streetTypes solver g hg
        simp only [decide_eq_true_eq]
        intro hsh
        rw [heq] at hsh
        exact hx (hsh ▸ List.mem_map_of_mem Prod.snd hkv2)
      · intro hc
        obtain ⟨kv2, hkv2, heq⟩ := mem_noRouteGeneratedL inp streetTypes solver x hc
        exact hx (heq ▸ List.mem_map_of_mem Prod.snd hkv2)
    by_cases hmem : ∃ kv ∈ inp.sequence_shape_dict, kv.2 = sh
    · obtain ⟨kv, hkv, hkvsh⟩ := hmem
      subst hkvsh
      by_cases hst : inp.rtOf kv.1.1 ∈ streetTypes
      · -- the shape is in the street bucket
        have hkvseq : kv ∈ sequencesStreets inp streetTypes := by
          apply List.mem_filter.mpr
          exact ⟨hkv, by simpa using hst⟩
        have hndseq : ((sequencesStreets inp streetTypes).map Prod.snd).Nodup :=
          sequencesStreets_nodup inp streetTypes hnd
        obtain ⟨c, hc, hkvc⟩ := exists_chunk_of_mem
          (sequencesStreets inp streetTypes).length _ (le_refl _) kv hkvseq
        have hmaster := street_master solver (sequencesStreets inp streetTypes).length
          (sequencesStreets inp streetTypes) (le_refl _) hndseq c hc kv hkvc
        have hnsa : inp.rtOf kv.1.1 ∉ straightTypes := hdisj _ hst
        have hstraight : ∀ nr : List Nat,
            (straightGeomsL inp straightTypes nr).filter (fun g => g.shape_id = kv.2)
              = if kv.2 ∈ nr
                then [⟨kv.2, Geom.straightLine (straightVerticesForKey inp kv)⟩]
                else [] := by
          intro nr
          rw [straightGeomsL_filter inp straightTypes nr kv hnd hkv]
          unfold straightCond
          by_cases hnr : kv.2 ∈ nr
          · rw [if_pos hnr, if_pos (by simp [hnr])]
          · rw [if_neg hnr, if_neg (by simp [hnr, hnsa])]
        cases hsol : solver c with
        | solveFailed =>
          have hnrmem : kv.2 ∈ noRouteGeneratedL inp streetTypes solver :=
            hmaster.2.mpr (Or.inl hsol)
          have hout : ¬ (straightTypes = []
              ∧ noRouteGeneratedL inp streetTypes solver = []) := by
            rintro ⟨_, hnil⟩
            rw [hnil] at hnrmem
            simp at hnrmem
          rw [generateShapes_full inp streetTypes straightTypes solver hS hout]
          simp only
          rw [List.filter_append]
          have hfs : (streetGeomsL inp streetTypes solver).filter
              (fun g => g.shape_id = kv.2) = [] := by
            have := hmaster.1
            rw [hsol] at this
            exact this
          rw [hfs, List.nil_append, hstraight _, if_pos hnrmem]
          simp
        | solved has u =>
          have hfs : (streetGeomsL inp streetTypes solver).filter
              (fun g => g.shape_id = kv.2)
              = if has kv.2 then [⟨kv.2, Geom.streetPath⟩] else [] := by
            have := hmaster.1
            rw [hsol] at this
            exact this
          by_cases hhas : has kv.2
          · have hnrnot : kv.2 ∉ noRouteGeneratedL inp streetTypes solver := by
              intro hc2
              rcases hmaster.2.mp hc2 with h | ⟨has2, u2, heq, hfalse⟩
              · rw [h] at hsol; simp at hsol
              · rw [heq] at hsol
                injection hsol with h1 h2
                subst h1
                rw [hhas] at hfalse
                simp at hfalse
            by_cases hout : straightTypes = []
                ∧ noRouteGeneratedL inp streetTypes solver = []
            · rw [generateShapes_street_only inp streetTypes straightTypes solver hS hout]
              simp only
              rw [hfs, if_pos hhas]
              simp
            · rw [generateShapes_full inp streetTypes straightTypes solver hS hout]
              simp only
              rw [List.filter_append, hfs, if_pos hhas, hstraight _, if_neg hnrnot]
              simp
          · have hnrmem : kv.2 ∈ noRouteGeneratedL inp streetTypes solver :=
              hmaster.2.mpr (Or.inr ⟨has, u, hsol, by simpa using hhas⟩)
            have hout : ¬ (straightTypes = []
                ∧ noRouteGeneratedL inp streetTypes solver = []) := by
              rintro ⟨_, hnil⟩
              rw [hnil] at hnrmem
              simp at hnrmem
            rw [generateShapes_full inp streetTypes straightTypes solver hS hout]
            simp only
            rw [List.filter_append, hfs, if_neg hhas, List.nil_append,
              hstraight _, if_pos hnrmem]
            simp
      · -- the shape is not in the street bucket
        have hnotseq : kv.2 ∉ (sequencesStreets inp streetTypes).map Prod.snd := by
          intro hc
          obtain ⟨kv2, hkv2, heq⟩ := List.mem_map.mp hc
          have hkv2dict := sequencesStreets_sub inp streetTypes kv2 hkv2
          have : kv2 = kv := snd_nodup_inj inp.sequence_shape_dict hnd kv2 kv hkv2dict hkv heq
          subst this
          have := (List.mem_filter.mp hkv2).2
          simp only [decide_eq_true_eq] at this
          exact hst this
        obtain ⟨hfs, hnr⟩ := hstreet_nil_of_nomem kv.2 hnotseq
        have hstraightle : ∀ nr : List Nat, kv.2 ∉ nr →
            ((straightGeomsL inp straightTypes nr).filter
              (fun g => g.shape_id = kv.2)).length ≤ 1 := by
          intro nr _
          rw [straightGeomsL_filter inp straightTypes nr kv hnd hkv]
          by_cases hcond : straightCond inp straightTypes nr kv
          · rw [if_pos hcond]; simp
          · rw [if_neg hcond]; simp
        by_cases hout : straightTypes = [] ∧ noRouteGeneratedL inp streetTypes solver = []
        · rw [generateShapes_street_only inp streetTypes straightTypes solver hS hout]
          simp only
          rw [hfs]
          simp
        · rw [generateShapes_full inp streetTypes straightTypes solver hS hout]
          simp only
          rw [List.filter_append, hfs, List.nil_append]
          exact hstraightle _ hnr
    · -- no sequence has this shape id at all
      have hstraightnil : ∀ nr : List Nat,
          (straightGeomsL inp straightTypes nr).filter (fun g => g.shape_id = sh) = [] := by
        intro nr
        apply List.filter_eq_nil_iff.mpr
        intro g hg
        obtain ⟨kv, hkv, heq⟩ := mem_straightGeomsL inp straightTypes nr g hg
        simp only [decide_eq_true_eq]
        intro hsh
        exact hmem ⟨kv, hkv, by rw [← heq, hsh]⟩
      have hstreetnil : (streetGeomsL inp streetTypes solver).filter
          (fun g => g.shape_id = sh) = [] := by
        apply List.filter_eq_nil_iff.mpr
        intro g hg
        obtain ⟨kv, hkv, heq⟩ := mem_streetGeomsL inp streetTypes solver g hg
        simp only [decide_eq_true_eq]
        intro hsh
        have hkvdict := sequencesStreets_sub inp streetTypes kv hkv
        rw [heq] at hsh
        exact hmem ⟨kv, hkvdict, hsh.symm ▸ rfl⟩
      by_cases hout : straightTypes = [] ∧ noRouteGeneratedL inp streetTypes solver = []
      · rw [generateShapes_street_only inp streetTypes straightTypes solver hS hout]
        simp only
        rw [hstreetnil]
        simp
      · rw [generateShapes_full inp streetTypes straightTypes solver hS hout]
        simp only
        rw [List.filter_append, hstreetnil, List.nil_append, hstraightnil]
        simp

-- ----- C4 counterexample: overlapping buckets give two geometries -----

/-- C4 fails as stated for arbitrary configurations: with route type 3
configured in both the street and the straight sets, a solved shape
receives a street geometry from the street pass and a second,
straight-line geometry from the straight pass. -/
theorem overlapping_buckets_two_geometries :
    ¬ (((generateShapes
        ⟨[(("r", ["s1", "s2"]), 1)], fun _ => 3,
          [("s1", (0, 0)), ("s2", (0, 1))],
          [("s1", ⟨1, 1, 0, 1⟩), ("s2", ⟨1, 1, 0, 1⟩)], "Right"⟩
        [3] [3] (fun _ => SolveOutcome.solved (fun _ => true) [])).geoms.filter
      (fun g => g.shape_id = 1)).length ≤ 1) := by
  decide

-- ----- C9: curb approach -----

theorem streetPointsForKey_curb (inp : DispatchIn) (kv : ShapeKey × Nat) :
    ∀ p ∈ streetPointsForKey inp kv, p.curb = computeCurbApproach inp.driveSide := by
  intro p hp
  obtain ⟨pr, hpr, heq⟩ := List.mem_filterMap.mp hp
  cases h1 : dictGet? inp.stoplatlon_dict pr.2 with
  | none =>
    rw [h1] at heq
    exact Option.noConfusion heq
  | some ll =>
    cases h2 : dictGet? inp.stoplocfield_dict pr.2 with
    | none =>
      rw [h1, h2] at heq
      exact Option.noConfusion heq
    | some lf =>
      rw [h1, h2] at heq
      have := Option.some.inj heq
      rw [← this]

theorem straightPointsForKey_curb (inp : DispatchIn) (kv : ShapeKey × Nat) :
    ∀ p ∈ straightPointsForKey inp kv, p.curb = computeCurbApproach inp.driveSide := by
  intro p hp
  obtain ⟨pr, hpr, heq⟩ := List.mem_filterMap.mp hp
  cases h1 : dictGet? inp.stoplatlon_dict pr.2 with
  | none =>
    rw [h1] at heq
    exact Option.noConfusion heq
  | some ll =>
    rw [h1] at heq
    have := Option.some.inj heq
    rw [← this]

theorem streetPointsL_curb (inp : DispatchIn) (streetTypes : List Int) (solver : Solver) :
    ∀ p ∈ streetPointsL inp streetTypes solver,
      p.curb = computeCurbApproach inp.driveSide := by
  intro p hp
  unfold streetPointsL at hp
  obtain ⟨c, _, hpc⟩ := (mem_concatMap _ _ p).mp hp
  unfold chunkPoints at hpc
  cases hsol : solver c with
  | solveFailed =>
    rw [hsol] at hpc
    exact absurd hpc (List.not_mem_nil _)
  | solved has u =>
    rw [hsol] at hpc
    obtain ⟨kv, _, hpkv⟩ := (mem_concatMap _ _ p).mp hpc
    exact streetPointsForKey_curb inp kv p hpkv

theorem straightPointsL_curb (inp : DispatchIn) (straightTypes : List Int) (nr : List Nat) :
    ∀ p ∈ straightPointsL inp straightTypes nr,
      p.curb = computeCurbApproach inp.driveSide := by
  intro p hp
  unfold straightPointsL at hp
  obtain ⟨kv, _, hpkv⟩ := (mem_concatMap _ _ p).mp hp
  exact straightPointsForKey_curb inp kv p hpkv

/-- C9: the source fixes driveSide to "Right" at line 119 before testing
it, so CurbApproach is 1 whatever the drive-side input was, and every
point of the Stops_wShapeIDs output, in the street pass and in the
straight pass alike, carries curb approach 1. -/
theorem curb_approach_always_one (inp : DispatchIn)
    (streetTypes straightTypes : List Int) (solver : Solver) :
    (∀ ds : String, computeCurbApproach ds = 1) ∧
    (∀ p ∈ (generateShapes inp streetTypes straightTypes solver).points, p.curb = 1) := by
  have hone : ∀ ds : String, computeCurbApproach ds = 1 := fun _ => rfl
  refine ⟨hone, ?_⟩
  intro p hp
  by_cases hS : streetTypes = []
  · by_cases hsa : straightTypes = []
    · rw [generateShapes_both_empty inp streetTypes straightTypes solver hS hsa] at hp
      exact absurd hp (List.not_mem_nil _)
    · rw [generateShapes_straight_only inp streetTypes straightTypes solver hS hsa] at hp
      simp only at hp
      rw [straightPointsL_curb inp straightTypes [] p hp, hone]
  · by_cases hout : straightTypes = [] ∧ noRouteGeneratedL inp streetTypes solver = []
    · rw [generateShapes_street_only inp streetTypes straightTypes solver hS hout] at hp
      simp only at hp
      rw [streetPointsL_curb inp streetTypes solver p hp, hone]
    · rw [generateShapes_full inp streetTypes straightTypes solver hS hout] at hp
      simp only at hp
      rcases List.mem_append.mp hp with h | h
      · rw [streetPointsL_curb inp streetTypes solver p h, hone]
      · rw [straightPointsL_curb inp straightTypes _ p h, hone]

-- ----- C5: unknown route_type crashes instead of normalizing -----

/-- C5 (code defect): for a route row whose route_type is not one of the
known codes 0..7, the except branch at lines 280-281 runs
route[5] = '100' on the immutable fetched tuple, which raises TypeError
and aborts the run; no RouteDict entry with code 100 and the label
"Other / Type not specified" is ever stored.  A known code is stored
normally, with its label. -/
theorem unknown_route_type_crashes :
    loadRouteDict [⟨"routeU", none, none, none, none, 8, none, none, none⟩]
      = Except.error PyErr.typeError ∧
    loadRouteDict [⟨"routeB", none, none, none, none, 3, none, none, none⟩]
      = Except.ok [("routeB", ⟨none, none, none, none, 3, none, none, none, "Bus"⟩)] :=
  ⟨rfl, rfl⟩

-- ----- C6: route_desc reconciliation -----

/-- C6 fails as stated: an empty route_desc is written through as the
empty string (the falsy branch of line 421 returns the value unchanged),
not converted to null. -/
theorem empty_route_desc_not_null :
    outputRouteDesc (some []) = some [] ∧ outputRouteDesc (some []) ≠ none := by
  exact ⟨rfl, by decide⟩

/-- C6 (amended): a route_desc longer than 250 characters is truncated
to exactly its first 250 characters; a null route_desc stays null; an
empty route_desc stays the empty string; a nonempty route_desc of at
most 250 characters passes through unchanged. -/
theorem route_desc_truncation_amended (s : List Char) (h : 250 < s.length) :
    outputRouteDesc none = none ∧
    outputRouteDesc (some ([] : List Char)) = some [] ∧
    outputRouteDesc (some s) = some (s.take 250) ∧
    (s.take 250).length = 250 ∧
    (∀ t : List Char, t.length ≤ 250 → outputRouteDesc (some t) = some t) := by
  refine ⟨rfl, rfl, ?_, ?_, ?_⟩
  · cases s with
    | nil => simp at h
    | cons c cs => rfl
  · rw [List.length_take]
    omega
  · intro t ht
    cases t with
    | nil => rfl
    | cons c cs =>
      show (if (c :: cs).isEmpty = true then some (c :: cs)
            else some (List.take 250 (c :: cs))) = some (c :: cs)
      rw [if_neg (by simp)]
      rw [take_all_of_le _ _ ht]

-- ----- C8: end-of-run warnings -----

/-- C8 (code defect): the warning for unlocated stops is the fixed text
only, independent of which stop ids were collected (the computed sorted
deduplicated list at line 787 is never concatenated into the message at
lines 788-790), while the missing-stop warning of the street pass does
embed its sorted deduplicated list. -/
theorem unlocated_warning_omits_stop_ids :
    unlocatedStopsWarning ["stopA"] = unlocatedStopsWarning ["stopB"] ∧
    unlocatedStopsWarning ["stopA"] ≠ [] ∧
    streetBadStopsWarning ["stopB", "stopA", "stopA"]
      = ["Your stop_times.txt lists times for the following stops which are not included in your stops.txt file. These stops will be ignored. "
          ++ toString ["stopA", "stopB"]] := by
  refine ⟨rfl, by simp [unlocatedStopsWarning], by decide⟩

-- ----- Witnesses -----

/-- Witness for C1 at a concrete two-trip dataset: trips A and C share
the stop sequence [s1] but use routes r1 and r2. -/
theorem dedup_shape_by_route_and_sequence_witness :
    ((("r1" : RouteId) = "r2") →
       shapeOfTrip [("A", "r1"), ("C", "r2")] [⟨"A", "s1", 1⟩, ⟨"C", "s1", 1⟩]
           ⟨[(("r1", ["s1"]), 1), (("r2", ["s1"]), 2)], [(1, ["A"]), (2, ["C"])], 3⟩ "A"
         = shapeOfTrip [("A", "r1"), ("C", "r2")] [⟨"A", "s1", 1⟩, ⟨"C", "s1", 1⟩]
           ⟨[(("r1", ["s1"]), 1), (("r2", ["s1"]), 2)], [(1, ["A"]), (2, ["C"])], 3⟩ "C"
       ∧ (shapeOfTrip [("A", "r1"), ("C", "r2")] [⟨"A", "s1", 1⟩, ⟨"C", "s1", 1⟩]
           ⟨[(("r1", ["s1"]), 1), (("r2", ["s1"]), 2)], [(1, ["A"]), (2, ["C"])], 3⟩ "A").isSome) ∧
    ((("r1" : RouteId) ≠ "r2") →
       shapeOfTrip [("A", "r1"), ("C", "r2")] [⟨"A", "s1", 1⟩, ⟨"C", "s1", 1⟩]
           ⟨[(("r1", ["s1"]), 1), (("r2", ["s1"]), 2)], [(1, ["A"]), (2, ["C"])], 3⟩ "A"
         ≠ shapeOfTrip [("A", "r1"), ("C", "r2")] [⟨"A", "s1", 1⟩, ⟨"C", "s1", 1⟩]
           ⟨[(("r1", ["s1"]), 1), (("r2", ["s1"]), 2)], [(1, ["A"]), (2, ["C"])], 3⟩ "C"
       ∧ (shapeOfTrip [("A", "r1"), ("C", "r2")] [⟨"A", "s1", 1⟩, ⟨"C", "s1", 1⟩]
           ⟨[(("r1", ["s1"]), 1), (("r2", ["s1"]), 2)], [(1, ["A"]), (2, ["C"])], 3⟩ "A").isSome
       ∧ (shapeOfTrip [("A", "r1"), ("C", "r2")] [⟨"A", "s1", 1⟩, ⟨"C", "s1", 1⟩]
           ⟨[(("r1", ["s1"]), 1), (("r2", ["s1"]), 2)], [(1, ["A"]), (2, ["C"])], 3⟩ "C").isSome) :=
  dedup_shape_by_route_and_sequence
    [("A", "r1"), ("C", "r2")] [⟨"A", "s1", 1⟩, ⟨"C", "s1", 1⟩]
    ⟨[(("r1", ["s1"]), 1), (("r2", ["s1"]), 2)], [(1, ["A"]), (2, ["C"])], 3⟩
    "A" "C" "r1" "r2" rfl (by decide) (by decide) rfl rfl rfl

/-- Witness for C2 at the three-trip scenario of the specification:
trips A and B share route r1 and sequence [s1, s2]; trip C uses route
r2 with the same sequence; two shapes result, ids 1 and 2. -/
theorem dedup_ids_dense_first_seen_witness :
    (DedupState.mk [(("r1", ["s1", "s2"]), 1), (("r2", ["s1", "s2"]), 2)]
        [(1, ["A", "B"]), (2, ["C"])] 3).sequence_shape_dict.map Prod.fst
      = distinctShapeKeys [("A", "r1"), ("B", "r1"), ("C", "r2")]
          [⟨"A", "s1", 1⟩, ⟨"A", "s2", 2⟩, ⟨"B", "s1", 1⟩, ⟨"B", "s2", 2⟩,
           ⟨"C", "s1", 1⟩, ⟨"C", "s2", 2⟩] ∧
    (DedupState.mk [(("r1", ["s1", "s2"]), 1), (("r2", ["s1", "s2"]), 2)]
        [(1, ["A", "B"]), (2, ["C"])] 3).sequence_shape_dict.map Prod.snd
      = List.range' 1 (numshapes (DedupState.mk
          [(("r1", ["s1", "s2"]), 1), (("r2", ["s1", "s2"]), 2)]
          [(1, ["A", "B"]), (2, ["C"])] 3)) ∧
    numshapes (DedupState.mk [(("r1", ["s1", "s2"]), 1), (("r2", ["s1", "s2"]), 2)]
        [(1, ["A", "B"]), (2, ["C"])] 3)
      = (distinctShapeKeys [("A", "r1"), ("B", "r1"), ("C", "r2")]
          [⟨"A", "s1", 1⟩, ⟨"A", "s2", 2⟩, ⟨"B", "s1", 1⟩, ⟨"B", "s2", 2⟩,
           ⟨"C", "s1", 1⟩, ⟨"C", "s2", 2⟩]).length :=
  dedup_ids_dense_first_seen [("A", "r1"), ("B", "r1"), ("C", "r2")]
    [⟨"A", "s1", 1⟩, ⟨"A", "s2", 2⟩, ⟨"B", "s1", 1⟩, ⟨"B", "s2", 2⟩,
     ⟨"C", "s1", 1⟩, ⟨"C", "s2", 2⟩]
    (DedupState.mk [(("r1", ["s1", "s2"]), 1), (("r2", ["s1", "s2"]), 2)]
        [(1, ["A", "B"]), (2, ["C"])] 3) rfl

/-- Witness for C10: trip X has stop_times rows but no trips row, and
the dedup phase ends in the error state. -/
theorem missing_trip_row_aborts_witness :
    deduplicate ([] : List (TripId × RouteId)) [⟨"X", "s1", 1⟩] = Except.error () :=
  missing_trip_row_aborts [] [⟨"X", "s1", 1⟩] "X" (by decide) rfl

/-- Witness for C7 at a concrete four-row trips table: trip A, present
in stop_times, ends with shape_id written; the theorem instance is
applied at its row. -/
theorem trips_table_shape_writes_witness :
    ∃ sh, shapeOfTrip
        (trip_route_dict [⟨"A", "r1", none⟩, ⟨"B", "r1", none⟩, ⟨"C", "r2", none⟩,
          ⟨"D", "r1", some "x"⟩])
        [⟨"A", "s1", 1⟩, ⟨"A", "s2", 2⟩, ⟨"B", "s1", 1⟩, ⟨"B", "s2", 2⟩,
         ⟨"C", "s1", 1⟩, ⟨"C", "s2", 2⟩]
        (DedupState.mk [(("r1", ["s1", "s2"]), 1), (("r2", ["s1", "s2"]), 2)]
          [(1, ["A", "B"]), (2, ["C"])] 3) "A" = some sh ∧
      (writePairs (DedupState.mk [(("r1", ["s1", "s2"]), 1), (("r2", ["s1", "s2"]), 2)]
          [(1, ["A", "B"]), (2, ["C"])] 3)).foldl applyShapeWrite ⟨"A", "r1", none⟩
        = ⟨"A", "r1", some (toString sh)⟩ :=
  ((trips_table_shape_writes
      [⟨"A", "r1", none⟩, ⟨"B", "r1", none⟩, ⟨"C", "r2", none⟩, ⟨"D", "r1", some "x"⟩]
      [⟨"A", "s1", 1⟩, ⟨"A", "s2", 2⟩, ⟨"B", "s1", 1⟩, ⟨"B", "s2", 2⟩,
       ⟨"C", "s1", 1⟩, ⟨"C", "s2", 2⟩]
      (DedupState.mk [(("r1", ["s1", "s2"]), 1), (("r2", ["s1", "s2"]), 2)]
        [(1, ["A", "B"]), (2, ["C"])] 3) rfl).2.1
    ⟨"A", "r1", none⟩ (by decide)).1 (by decide)

/-- Witness for C3 at a one-shape street run whose single chunk fails to
solve: shape 1 lands in noRoute with exactly one straight geometry. -/
theorem solve_failed_batch_straight_fallback_witness :
    (1 : Nat) ∈ (generateShapes
        ⟨[(("r", ["s1"]), 1)], fun _ => 0, [("s1", (2, 1))], [("s1", ⟨1, 1, 0, 1⟩)], "Right"⟩
        [0] [] (fun _ => SolveOutcome.solveFailed)).noRoute ∧
    ((generateShapes
        ⟨[(("r", ["s1"]), 1)], fun _ => 0, [("s1", (2, 1))], [("s1", ⟨1, 1, 0, 1⟩)], "Right"⟩
        [0] [] (fun _ => SolveOutcome.solveFailed)).geoms.filter
        (fun g => g.shape_id = (("r", ["s1"]), 1).2))
      = [⟨(("r", ["s1"]), 1).2, Geom.straightLine (straightVerticesForKey
          ⟨[(("r", ["s1"]), 1)], fun _ => 0, [("s1", (2, 1))], [("s1", ⟨1, 1, 0, 1⟩)], "Right"⟩
          (("r", ["s1"]), 1))⟩] ∧
    (∀ c2 ∈ streetChunks
        ⟨[(("r", ["s1"]), 1)], fun _ => 0, [("s1", (2, 1))], [("s1", ⟨1, 1, 0, 1⟩)], "Right"⟩ [0],
       ∀ has u, (fun _ => SolveOutcome.solveFailed) c2 = SolveOutcome.solved has u →
       ∀ kv2 ∈ c2, has kv2.2 = true →
       (⟨kv2.2, Geom.streetPath⟩ : GeomEntry)
         ∈ (generateShapes
             ⟨[(("r", ["s1"]), 1)], fun _ => 0, [("s1", (2, 1))], [("s1", ⟨1, 1, 0, 1⟩)], "Right"⟩
             [0] [] (fun _ => SolveOutcome.solveFailed)).geoms) :=
  solve_failed_batch_straight_fallback
    ⟨[(("r", ["s1"]), 1)], fun _ => 0, [("s1", (2, 1))], [("s1", ⟨1, 1, 0, 1⟩)], "Right"⟩
    [0] [] (fun _ => SolveOutcome.solveFailed)
    [(("r", ["s1"]), 1)] (("r", ["s1"]), 1)
    (by decide) (by decide) (by decide) rfl

/-- Witness for C4 (amended) with disjoint buckets, checked at shape 1. -/
theorem at_most_one_geometry_per_shape_witness :
    ((generateShapes ⟨[(("r", ["s1"]), 1)], fun _ => 0, [], [], "Right"⟩
        [0] [3] (fun _ => SolveOutcome.solveFailed)).geoms.filter
      (fun g => g.shape_id = 1)).length ≤ 1 :=
  at_most_one_geometry_per_shape
    ⟨[(("r", ["s1"]), 1)], fun _ => 0, [], [], "Right"⟩
    [0] [3] (fun _ => SolveOutcome.solveFailed)
    (by decide)
    (by
      intro ty hty
      rw [List.mem_singleton] at hty
      subst hty
      decide) 1

/-- Witness for C6 (amended) at a 251-character description. -/
theorem route_desc_truncation_amended_witness :
    outputRouteDesc none = none ∧
    outputRouteDesc (some ([] : List Char)) = some [] ∧
    outputRouteDesc (some (List.replicate 251 'a'))
      = some ((List.replicate 251 'a').take 250) ∧
    ((List.replicate 251 'a').take 250).length = 250 ∧
    (∀ t : List Char, t.length ≤ 250 → outputRouteDesc (some t) = some t) :=
  route_desc_truncation_amended (List.replicate 251 'a') (by rw [List.length_replicate]; omega)

/-- Witness for C9 at a straight-pass run whose drive-side input is
"Left": the emitted point still carries curb approach 1. -/
theorem curb_approach_always_one_witness :
    (SeqPoint.mk 0 0 "s1" 1 1 1).curb = 1 :=
  (curb_approach_always_one
      ⟨[(("r", ["s1"]), 1)], fun _ => 3, [("s1", (0, 0))], [], "Left"⟩
      [] [3] (fun _ => SolveOutcome.solveFailed)).2
    (SeqPoint.mk 0 0 "s1" 1 1 1) (by decide)
